import Mathlib

/-!
Verification development for the `node-latex-compiler` repository.

The repository wraps the Tectonic LaTeX-to-PDF binary.  `index.js` wires
`lib/latex-compiler.js` (the compiler orchestrator, given here as
`src/unnamed/part_003`) and `lib/platform-resolver.js`
(`src/unnamed/part_004`, first copy).  This file shallowly embeds those
modules:

* Filesystem paths are modelled as lists of components (`Path`); the code
  only builds paths with `path.join(dir, name)`, reads parents with
  `path.dirname`, and last components with `path.basename`, which map to
  `p ++ [name]`, `p.dropLast` and `p.getLast?` on clean absolute paths.
  `path.resolve` is the identity on the absolute paths of the model.
* The filesystem is an explicit state (`FS`): a set of directory paths and
  an association list of file paths to contents.  `fs.existsSync`,
  `fs.writeFileSync`, `fs.unlinkSync`, `fs.renameSync`, `fs.readFileSync`
  and `fs.mkdirSync {recursive: true}` become total Lean functions that
  return `Except JsError _`, mirroring Node's throwing behaviour
  (ENOTDIR when a parent component is a plain file, etc.).
* The subprocess is an oracle (`ProcBehavior`): it either closes with an
  exit code (possibly `null`), having emitted stdout/stderr chunks and
  written files, or fails to launch with an error message.
* JS truthiness of optional strings/paths (empty string falsy) and the
  JS `||` operator on numbers (`0` falsy) are modelled explicitly.
-/

namespace NLC

/-- A filesystem path, as its list of components. -/
abbrev Path := List String

/-- Render a path the way the JS code would hold it as a string. -/
def renderPath (p : Path) : String := String.intercalate "/" p

/-- Last component of a path (`path.basename` without extension stripping). -/
def lastStr (p : Path) : String := (p.getLast?).getD ""

/-- JS truthiness of an optional string (`undefined`/`null`/`""` are falsy). -/
def truthyS : Option String → Bool
  | some s => s ≠ ""
  | none => false

/-- JS truthiness of an optional path-valued field (empty path string falsy). -/
def truthyP : Option Path → Bool
  | some p => p ≠ []
  | none => false

/-- JS `x || d` on an optional number: `null`/`undefined` and `0` are falsy. -/
def jsOrNum : Option Int → Int → Int
  | some v, d => if v = 0 then d else v
  | none, d => d

/-- `path.extname` applied to a single filename component: the suffix from
the last dot, empty when there is no dot or the only dot is leading. -/
def extnameOf (s : String) : String :=
  let cs := s.data
  match (cs.reverse).findIdx? (fun c => c = '.') with
  | none => ""
  | some k =>
    if k + 1 = cs.length then "" else String.mk (cs.drop (cs.length - 1 - k))

/-- `path.basename(f, path.extname(f))` on a single component: the filename
with its extension stripped. -/
def baseNoExt (s : String) : String :=
  let e := extnameOf s
  if e = "" then s else String.mk (s.data.take (s.data.length - e.data.length))

/-- Errors thrown by the modelled Node filesystem calls, plus plain
`new Error(msg)` throws and the `ReferenceError` latent in the code. -/
inductive JsError where
  | err (msg : String)
  | enotdir (p : Path)
  | enoent (p : Path)
  | eisdir (p : Path)
  | eexist (p : Path)
  | refError (name : String)
deriving DecidableEq, Repr

/-- Membership of a path in a list of paths. -/
def memPath : List Path → Path → Bool
  | [], _ => false
  | q :: t, p => if p = q then true else memPath t p

/-- Lookup in an association list of files. -/
def lookupFile : List (Path × String) → Path → Option String
  | [], _ => none
  | (q, c) :: t, p => if p = q then some c else lookupFile t p

/-- Insert-or-replace in an association list of files. -/
def setFile : List (Path × String) → Path → String → List (Path × String)
  | [], p, c => [(p, c)]
  | (q, c0) :: t, p, c => if p = q then (p, c) :: t else (q, c0) :: setFile t p c

/-- Remove a key from an association list of files (all bindings of the
key, so that the list keeps denoting a finite map). -/
def eraseFile : List (Path × String) → Path → List (Path × String)
  | [], _ => []
  | (q, c0) :: t, p => if p = q then eraseFile t p else (q, c0) :: eraseFile t p

/-- The filesystem state: directories and files with contents. -/
structure FS where
  dirs : List Path
  files : List (Path × String)
deriving DecidableEq, Repr

/-- `fs.existsSync`. -/
def existsSyncFS (fs : FS) (p : Path) : Bool :=
  memPath fs.dirs p || (lookupFile fs.files p).isSome

/-- Proper ancestors of a path, shortest first. -/
def properAncestors (p : Path) : List Path :=
  (List.range (p.length - 1)).map (fun i => p.take (i + 1))

/-- Add paths to a directory list, skipping those already present. -/
def addDirs (ds : List Path) (new : List Path) : List Path :=
  new.foldl (fun acc p => if memPath acc p then acc else acc ++ [p]) ds

/-- `fs.mkdirSync(p, { recursive: true })`: creates the directory and its
missing ancestors; throws ENOTDIR when an ancestor is a plain file and
EEXIST when the path itself is one. -/
def mkdirRecFS (fs : FS) (p : Path) : Except JsError FS :=
  if (lookupFile fs.files p).isSome then .error (.eexist p)
  else
    match (properAncestors p).find? (fun a => (lookupFile fs.files a).isSome) with
    | some a => .error (.enotdir a)
    | none => .ok ⟨addDirs fs.dirs (properAncestors p ++ [p]), fs.files⟩

/-- `fs.writeFileSync(p, content)`: throws ENOTDIR when the parent is a
plain file, ENOENT when it is missing, EISDIR when `p` is a directory. -/
def writeFileFS (fs : FS) (p : Path) (content : String) : Except JsError FS :=
  let parent := p.dropLast
  if (lookupFile fs.files parent).isSome then .error (.enotdir parent)
  else if memPath fs.dirs parent then
    if memPath fs.dirs p then .error (.eisdir p)
    else .ok ⟨fs.dirs, setFile fs.files p content⟩
  else .error (.enoent parent)

/-- `fs.unlinkSync(p)`. -/
def unlinkFS (fs : FS) (p : Path) : Except JsError FS :=
  if (lookupFile fs.files p).isSome then .ok ⟨fs.dirs, eraseFile fs.files p⟩
  else if memPath fs.dirs p then .error (.eisdir p)
  else .error (.enoent p)

/-- `fs.unlinkSync` wrapped in `try { ... } catch (e) { /* ignore */ }`. -/
def tryUnlinkIgnore (fs : FS) (p : Path) : FS :=
  match unlinkFS fs p with
  | .ok fs' => fs'
  | .error _ => fs

/-- `fs.renameSync(src, dst)`. -/
def renameFS (fs : FS) (src dst : Path) : Except JsError FS :=
  match lookupFile fs.files src with
  | none => .error (.enoent src)
  | some c =>
    let parent := dst.dropLast
    if (lookupFile fs.files parent).isSome then .error (.enotdir parent)
    else if memPath fs.dirs parent then
      if memPath fs.dirs dst then .error (.eisdir dst)
      else .ok ⟨fs.dirs, setFile (eraseFile fs.files src) dst c⟩
    else .error (.enoent parent)

/-- `fs.readFileSync(p)`; the returned buffer is modelled by its bytes as
a string. -/
def readFileFS (fs : FS) (p : Path) : Except JsError String :=
  match lookupFile fs.files p with
  | some c => .ok c
  | none => if memPath fs.dirs p then .error (.eisdir p) else .error (.enoent p)

/-- `path.resolve` on the absolute paths of the model. -/
def pathResolve (_cwd : Path) (p : Path) : Path := p

/-!
## Process Executor (`executeCompilation`, part_003 lines 228-287)

The subprocess is an oracle.  `exits code writes outChunks errChunks` is a
run whose child emitted the given stdout/stderr data chunks, wrote the
given files into the filesystem, and then produced a `close` event with
the given code (`none` models a `null` code, e.g. killed by a signal).
`launchError` is a run whose child emitted an `error` event after the
given chunks and never closed normally.
-/

/-- Observable behaviour of one spawned subprocess. -/
inductive ProcBehavior where
  | exits (code : Option Int) (writes : List (Path × String))
      (outChunks errChunks : List String)
  | launchError (msg : String) (outChunks errChunks : List String)
deriving DecidableEq, Repr

/-- Stdout chunks of a behaviour. -/
def behOutChunks : ProcBehavior → List String
  | .exits _ _ outs _ => outs
  | .launchError _ outs _ => outs

/-- Stderr chunks of a behaviour. -/
def behErrChunks : ProcBehavior → List String
  | .exits _ _ _ errs => errs
  | .launchError _ _ errs => errs

/-- Whether the behaviour is a normal close with exit code `0`. -/
def behExit0 : ProcBehavior → Bool
  | .exits (some 0) _ _ _ => true
  | _ => false

/-- Files the subprocess wrote (empty when it never launched). -/
def behWrites : ProcBehavior → List (Path × String)
  | .exits _ w _ _ => w
  | .launchError _ _ _ => []

/-- Apply the subprocess's file writes to the filesystem. -/
def applyWrites (fs : FS) (beh : ProcBehavior) : FS :=
  ⟨fs.dirs, (behWrites beh).foldl (fun f pc => setFile f pc.1 pc.2) fs.files⟩

/-- `stdout += text` accumulation over the received chunks. -/
def accumulate (chunks : List String) : String :=
  chunks.foldl (fun a c => a ++ c) ""

/-- The object `executeCompilation` resolves with. -/
structure ExecResult where
  status : String
  exitCode : Option Int
  error : Option String
  stdout : String
  stderr : String
deriving DecidableEq, Repr

/-- The quoted command line built by `executeCompilation`. -/
def execCmd (tectonicPath texPath outdir : Path) : String :=
  "\"" ++ renderPath tectonicPath ++ "\" \"" ++ renderPath texPath ++
    "\" --outdir=\"" ++ renderPath outdir ++ "\""

/-- One invocation of the executor, as observed from outside. -/
structure ExecCall where
  texPath : Path
  outdir : Path
  cmd : String
deriving DecidableEq, Repr

/-- Result of `executeCompilation` together with the sequences of chunks
forwarded to the `onStdout` / `onStderr` observers (empty when the
corresponding observer was not supplied). -/
structure ExecOutput where
  result : ExecResult
  stdoutCalls : List String
  stderrCalls : List String
deriving DecidableEq, Repr

/-- `executeCompilation` (part_003 lines 228-287): accumulates every data
chunk into `stdout` / `stderr`, forwards each chunk to the observer when
one is given, resolves with `status: 'success', exitCode: 0` on a close
with code `0`, with `status: 'failed'` and the close code otherwise, and
resolves (never rejects) with the sentinel `-1` and the error's message
on a launch error. -/
def executeCompilationFull (hasOnStdout hasOnStderr : Bool)
    (beh : ProcBehavior) : ExecOutput :=
  let stdout := accumulate (behOutChunks beh)
  let stderr := accumulate (behErrChunks beh)
  let res : ExecResult :=
    match beh with
    | .exits code _ _ _ =>
      if code = some 0 then ⟨"success", some 0, none, stdout, stderr⟩
      else ⟨"failed", code, none, stdout, stderr⟩
    | .launchError msg _ _ => ⟨"failed", some (-1), some msg, stdout, stderr⟩
  ⟨res, if hasOnStdout then behOutChunks beh else [],
    if hasOnStderr then behErrChunks beh else []⟩

/-!
## Compile Orchestrator (`compile`, part_003 lines 88-222)
-/

/-- Ambient data of one compiler instance and call: the scratch directory
path (`path.join(__dirname, '..', 'temp')` of `getTempDir`), the process
working directory, `Date.now()` at the call, and the resolved binary. -/
structure Env where
  tempDir : Path
  cwd : Path
  now : Nat
  tectonicPath : Path
deriving DecidableEq, Repr

/-- The compile request (`config`).  Observer callbacks are modelled by
their presence flags; `onStdout` / `onStderr` invocation sequences are
reported by `executeCompilationFull`. -/
structure Config where
  tex : Option String := none
  texFile : Option Path := none
  outputDir : Option Path := none
  outputFile : Option Path := none
  returnBuffer : Bool := false
  hasOnStdout : Bool := false
  hasOnStderr : Bool := false
deriving DecidableEq, Repr

/-- The compile outcome object.  `none` fields model absent JS keys. -/
structure Outcome where
  status : String
  pdfPath : Option Path := none
  pdfBuffer : Option String := none
  exitCode : Option Int := none
  error : Option String := none
  stdout : Option String := none
  stderr : Option String := none
deriving DecidableEq, Repr

/-- `getTempDir` (part_003 lines 13-19): ensure the scratch directory
exists (creating it recursively) and return its path. -/
def getTempDir (env : Env) (fs : FS) : Except JsError (Path × FS) :=
  if existsSyncFS fs env.tempDir then .ok (env.tempDir, fs)
  else
    match mkdirRecFS fs env.tempDir with
    | .error e => .error e
    | .ok fs' => .ok (env.tempDir, fs')

/-- `ensureDirectoryExists` (part_003 lines 302-306): create the directory
recursively only when nothing exists at the path. -/
def ensureDirectoryExists (fs : FS) (p : Path) : Except JsError FS :=
  if existsSyncFS fs p then .ok fs else mkdirRecFS fs p

/-- `getTempPdfPath` (part_003 lines 293-296): Tectonic writes the PDF
under the input's base name, in the given directory. -/
def getTempPdfPath (texPath outputDir : Path) : Path :=
  outputDir ++ [baseNoExt (lastStr texPath) ++ ".pdf"]

/-- The temporary source filename for text input
(`__temp_compile_${Date.now()}.tex`). -/
def tempTexName (env : Env) : String :=
  "__temp_compile_" ++ toString env.now ++ ".tex"

/-- Scratch path of the generated temporary source file. -/
def tempTexPathOf (env : Env) : Path := env.tempDir ++ [tempTexName env]

/-- Result of the input-materialization step (part_003 lines 100-113). -/
inductive MatOut where
  | thrown (e : JsError) (tempTexPath : Option Path) (fs : FS)
  | ok (tempTexPath : Path) (shouldCleanupTemp : Bool) (fs : FS)
deriving DecidableEq, Repr

/-- Materialize the input: use `config.texFile` if given (it must exist),
else write `config.tex` to a fresh scratch file, else throw. -/
def materializeInput (env : Env) (cfg : Config) (fs : FS) (tempDir : Path) :
    MatOut :=
  if truthyP cfg.texFile then
    let f := cfg.texFile.getD []
    if ¬ existsSyncFS fs f then
      .thrown (.err ("LaTeX file not found: " ++ renderPath f)) none fs
    else .ok f false fs
  else if truthyS cfg.tex then
    let p := tempDir ++ [tempTexName env]
    match writeFileFS fs p (cfg.tex.getD "") with
    | .error e => .thrown e (some p) fs
    | .ok fs' => .ok p true fs'
  else .thrown (.err "Either tex or texFile must be provided") none fs

/-- `config.outputDir || (config.texFile ? path.dirname(config.texFile)
: tempDir)` (part_003 line 117). -/
def chooseOutputDir (cfg : Config) (tempDir : Path) : Path :=
  if truthyP cfg.outputDir then cfg.outputDir.getD []
  else if truthyP cfg.texFile then (cfg.texFile.getD []).dropLast
  else tempDir

/-- Final PDF destination (part_003 lines 123-132). -/
def computeFinalPdf (env : Env) (cfg : Config) (outputDir tempTexPath : Path) :
    Path :=
  if truthyP cfg.outputFile then pathResolve env.cwd (cfg.outputFile.getD [])
  else if truthyP cfg.texFile then
    let f := cfg.texFile.getD []
    outputDir ++ [baseNoExt (lastStr f) ++ ".pdf"]
  else outputDir ++ [baseNoExt (lastStr tempTexPath) ++ ".pdf"]

/-- Result handling after the executor resolves (part_003 lines 142-190):
the outcome (or thrown error), the filesystem, and the recorded value of
the `fs.existsSync(tempPdfPath)` check (`none` when it never ran). -/
def handleResult (cfg : Config) (fs : FS) (tempDir finalPdfPath : Path)
    (tempTexPath : Path) (res : ExecResult) :
    Except JsError Outcome × FS × Option Bool :=
  if res.status = "success" then
    let tempPdfPath := getTempPdfPath tempTexPath tempDir
    if existsSyncFS fs tempPdfPath then
      if cfg.returnBuffer then
        match readFileFS fs tempPdfPath with
        | .error e => (.error e, fs, some true)
        | .ok buf =>
          if tempPdfPath ≠ finalPdfPath then
            match unlinkFS fs tempPdfPath with
            | .error e => (.error e, fs, some true)
            | .ok fs' =>
              (.ok { status := "success", pdfBuffer := some buf,
                     stdout := some res.stdout, stderr := some res.stderr },
                fs', some true)
          else
            (.ok { status := "success", pdfBuffer := some buf,
                   stdout := some res.stdout, stderr := some res.stderr },
              fs, some true)
      else
        if tempPdfPath ≠ finalPdfPath then
          let step1 : Except JsError FS :=
            if existsSyncFS fs finalPdfPath then unlinkFS fs finalPdfPath
            else .ok fs
          match step1 with
          | .error e => (.error e, fs, some true)
          | .ok fs1 =>
            match renameFS fs1 tempPdfPath finalPdfPath with
            | .error e => (.error e, fs1, some true)
            | .ok fs2 =>
              (.ok { status := "success", pdfPath := some finalPdfPath,
                     stdout := some res.stdout, stderr := some res.stderr },
                fs2, some true)
        else
          (.ok { status := "success", pdfPath := some finalPdfPath,
                 stdout := some res.stdout, stderr := some res.stderr },
            fs, some true)
    else
      (.ok { status := "failed", exitCode := some (jsOrNum res.exitCode (-1)),
             error := some "PDF file was not generated",
             stdout := some res.stdout, stderr := some res.stderr },
        fs, some false)
  else
    (.ok { status := res.status, exitCode := res.exitCode, error := res.error,
           stdout := some res.stdout, stderr := some res.stderr },
      fs, none)

instance {ε α : Type} [DecidableEq ε] [DecidableEq α] :
    DecidableEq (Except ε α) := fun x y =>
  match x, y with
  | .ok a, .ok b =>
    if h : a = b then .isTrue (by rw [h])
    else .isFalse (by intro hh; cases hh; exact h rfl)
  | .error a, .error b =>
    if h : a = b then .isTrue (by rw [h])
    else .isFalse (by intro hh; cases hh; exact h rfl)
  | .ok _, .error _ => .isFalse (by intro hh; cases hh)
  | .error _, .ok _ => .isFalse (by intro hh; cases hh)

/-- State of the `try` block at its exit (before the `finally` block). -/
structure TryOut where
  outcome : Except JsError Outcome
  fs : FS
  calls : List ExecCall
  tempTexPath : Option Path
  shouldCleanupTemp : Bool
  execResult : Option ExecResult
  artifactFound : Option Bool
deriving DecidableEq, Repr

/-- The `try` block of `compile` (part_003 lines 96-190). -/
def compileTry (env : Env) (cfg : Config) (fs0 : FS) (beh : ProcBehavior) :
    TryOut :=
  match getTempDir env fs0 with
  | .error e => ⟨.error e, fs0, [], none, false, none, none⟩
  | .ok (tempDir, fs1) =>
    match materializeInput env cfg fs1 tempDir with
    | .thrown e tt fs2 => ⟨.error e, fs2, [], tt, false, none, none⟩
    | .ok tempTexPath shouldCleanupTemp fs2 =>
      let outputDir := chooseOutputDir cfg tempDir
      match ensureDirectoryExists fs2 outputDir with
      | .error e =>
        ⟨.error e, fs2, [], some tempTexPath, shouldCleanupTemp, none, none⟩
      | .ok fs3 =>
        let compileOutputDir := tempDir
        let finalPdfPath := computeFinalPdf env cfg outputDir tempTexPath
        let eo := executeCompilationFull cfg.hasOnStdout cfg.hasOnStderr beh
        let call : ExecCall :=
          ⟨tempTexPath, compileOutputDir,
            execCmd env.tectonicPath tempTexPath compileOutputDir⟩
        let fs4 := applyWrites fs3 beh
        let hr :=
          handleResult cfg fs4 compileOutputDir finalPdfPath tempTexPath
            eo.result
        ⟨hr.1, hr.2.1, [call], some tempTexPath, shouldCleanupTemp,
          some eo.result, hr.2.2⟩

/-- `result && result.status === 'success'` on the try-block's `result`. -/
def execSucceeded : Option ExecResult → Bool
  | some r => r.status = "success"
  | none => false

/-- First step of the `finally` block (part_003 lines 193-199):
best-effort deletion of the generated temporary source file, with any
deletion error swallowed. -/
def finallyCleanupTemp (t : TryOut) : FS :=
  if t.shouldCleanupTemp ∧ truthyP t.tempTexPath ∧
      existsSyncFS t.fs (t.tempTexPath.getD []) then
    tryUnlinkIgnore t.fs (t.tempTexPath.getD [])
  else t.fs

/-- The `finally` block of `compile` (part_003 lines 191-221): best-effort
deletion of the generated temporary source file, then the leftover
scratch-PDF cleanup.  A throw inside `finally` replaces the outcome; the
reference to the try-scoped `outputDir` on line 209 is a `ReferenceError`
when reached. -/
def compileFinally (env : Env) (cfg : Config) (t : TryOut) :
    Except JsError Outcome × FS :=
  let fsA := finallyCleanupTemp t
  if execSucceeded t.execResult ∧ truthyP t.tempTexPath then
    match getTempDir env fsA with
    | .error e => (.error e, fsA)
    | .ok (td, fsB) =>
      let tt := t.tempTexPath.getD []
      let tempPdfPath := getTempPdfPath tt td
      if existsSyncFS fsB tempPdfPath then
        if truthyP cfg.outputFile then
          let finalPdfPath := pathResolve env.cwd (cfg.outputFile.getD [])
          if tempPdfPath ≠ finalPdfPath ∧ td.isPrefixOf tempPdfPath then
            (t.outcome, tryUnlinkIgnore fsB tempPdfPath)
          else (t.outcome, fsB)
        else if truthyP cfg.texFile then
          (.error (.refError "outputDir is not defined"), fsB)
        else (t.outcome, fsB)
      else (t.outcome, fsB)
  else (t.outcome, fsA)

/-- Everything observable about one `compile` call. -/
structure CompileTrace where
  result : Except JsError Outcome
  fs : FS
  execCalls : List ExecCall
  artifactFound : Option Bool
deriving DecidableEq, Repr

/-- `compile` (part_003 lines 88-222): the try block followed by the
guaranteed-run finally block. -/
def compile (env : Env) (cfg : Config) (fs0 : FS) (beh : ProcBehavior) :
    CompileTrace :=
  let t := compileTry env cfg fs0 beh
  let fin := compileFinally env cfg t
  ⟨fin.1, fin.2, t.calls, t.artifactFound⟩

/-!
## Executable Resolver (`platform-resolver`, part_004 lines 1-292)

`fs.chmodSync` attempts are modelled as no-ops: the model has no
permission bits, and the source tolerates chmod failure by returning the
candidate path either way, so they do not affect any returned value.
-/

/-- Ambient data of the resolver: the current platform and CPU
architecture, the package root (`path.join(__dirname, '..')`), the
working directory, the module resolution table (successful
`require.resolve` results), and the raw lines printed by the
`which tectonic` / `where tectonic` lookup (`none` when it throws). -/
structure ResolverEnv where
  platform : String
  arch : String
  pkgRoot : Path
  cwd : Path
  requireResolved : List (String × Path)
  whichLines : Option (List Path)
deriving DecidableEq, Repr

/-- Options accepted by the resolver and the compiler constructor. -/
structure ResolverOptions where
  tectonicPath : Option Path := none
deriving DecidableEq, Repr

/-- `getRuntimePackageName` (part_004 lines 14-27). -/
def getRuntimePackageName (platform arch : String) : Option String :=
  if platform = "win32" ∧ arch = "x64" then
    some "@node-latex-compiler/bin-win32-x64"
  else if platform = "darwin" ∧ arch = "x64" then
    some "@node-latex-compiler/bin-darwin-x64"
  else if platform = "darwin" ∧ arch = "arm64" then
    some "@node-latex-compiler/bin-darwin-arm64"
  else if platform = "linux" ∧ arch = "x64" then
    some "@node-latex-compiler/bin-linux-x64"
  else none

/-- `getExecutableName` (part_004 lines 35-40). -/
def getExecutableName (platform : String) : String :=
  if platform = "win32" then "tectonic.exe" else "tectonic"

/-- Architecture normalization (part_004 lines 52-58). -/
def normalizeArch (arch : String) : String :=
  if arch = "x86_64" ∨ arch = "amd64" then "x64"
  else if arch = "aarch64" then "arm64"
  else arch

/-- Lookup in the module-resolution table. -/
def lookupStr : List (String × Path) → String → Option Path
  | [], _ => none
  | (k, v) :: t, s => if s = k then some v else lookupStr t s

/-- Immediate child entry names of a directory (`fs.readdirSync`). -/
def childNames (fs : FS) (d : Path) : List String :=
  ((fs.dirs ++ fs.files.map (fun f => f.1)).filterMap
    (fun q =>
      if q.length = d.length + 1 ∧ d.isPrefixOf q then q.getLast? else none)).dedup

/-- The architecture-agnostic scan over `bin/` sibling directories
(part_004 lines 96-120). -/
def scanBinDirs (platform : String) (fs : FS) (binBase : Path)
    (exeName : String) : Option Path :=
  (childNames fs binBase).findSome? fun entry =>
    if entry.startsWith (platform ++ "-") then
      let candidatePath := binBase ++ [entry, exeName]
      if existsSyncFS fs candidatePath then some candidatePath else none
    else none

/-- `resolveBundledTectonic` (part_004 lines 48-167): local `bin/` keyed
by platform-arch, the Darwin alternative-architecture retry, the scan
over platform-prefixed `bin/` siblings, then the optional runtime
package via module resolution. -/
def resolveBundledTectonic (re : ResolverEnv) (fs : FS) : Option Path :=
  let normalizedArch := normalizeArch re.arch
  let exeName := getExecutableName re.platform
  let localBinPath := re.pkgRoot ++ ["bin", re.platform ++ "-" ++ normalizedArch]
  let localTectonicPath := localBinPath ++ [exeName]
  if existsSyncFS fs localTectonicPath then some localTectonicPath
  else
    let altArch := if normalizedArch = "x64" then "arm64" else "x64"
    let altLocalTectonicPath :=
      re.pkgRoot ++ ["bin", re.platform ++ "-" ++ altArch, exeName]
    if re.platform = "darwin" ∧ existsSyncFS fs altLocalTectonicPath then
      some altLocalTectonicPath
    else
      let binBasePath := re.pkgRoot ++ ["bin"]
      let scanned :=
        if existsSyncFS fs binBasePath then
          scanBinDirs re.platform fs binBasePath exeName
        else none
      match scanned with
      | some p => some p
      | none =>
        match getRuntimePackageName re.platform normalizedArch with
        | none => none
        | some pkgName =>
          let pkgPath? :=
            match lookupStr re.requireResolved (pkgName ++ "/package.json") with
            | some pkgJsonPath => some pkgJsonPath.dropLast
            | none =>
              let possiblePath :=
                re.pkgRoot ++ ["node_modules"] ++ pkgName.splitOn "/"
              if existsSyncFS fs (possiblePath ++ ["package.json"]) then
                some possiblePath
              else none
          match pkgPath? with
          | none => none
          | some pkgPath =>
            let tectonicPath := pkgPath ++ ["bin", exeName]
            if existsSyncFS fs tectonicPath then some tectonicPath else none

/-- `findTectonicInPath` (part_004 lines 225-246): first line of the
`which`/`where` output, verified to exist. -/
def findTectonicInPath (re : ResolverEnv) (fs : FS) : Option Path :=
  match re.whichLines with
  | none => none
  | some lines =>
    match lines.head? with
    | none => none
    | some tectonicPath =>
      if tectonicPath ≠ [] ∧ existsSyncFS fs tectonicPath then
        some tectonicPath
      else none

/-- `resolveTectonicExecutable` (part_004 lines 181-218): user override
(only when it exists on disk), then bundled binary, then system PATH. -/
def resolveTectonicExecutable (re : ResolverEnv) (opts : ResolverOptions)
    (fs : FS) : Option Path :=
  let override :=
    if truthyP opts.tectonicPath then
      let tectonicPath := pathResolve re.cwd (opts.tectonicPath.getD [])
      if existsSyncFS fs tectonicPath then some tectonicPath else none
    else none
  match override with
  | some p => some p
  | none =>
    match resolveBundledTectonic re fs with
    | some p => some p
    | none => findTectonicInPath re fs

/-- JS `a || b` on optional path-valued expressions. -/
def jsOrOptPath (a b : Option Path) : Option Path :=
  if truthyP a then a else b

/-- The error message thrown by the constructor when nothing resolves. -/
def ctorNotFoundMsg : String :=
  "Tectonic executable not found. Please install " ++
    "@node-tectonic-compiler/bin-* package for your platform, " ++
    "or specify tectonicPath in options."

/-- `TectonicCompiler` constructor (part_003 lines 28-39):
`this.tectonicPath = options.tectonicPath ||
resolveTectonicExecutable(options)`, then fail fast when falsy. -/
def constructorTectonicPath (re : ResolverEnv) (opts : ResolverOptions)
    (fs : FS) : Except JsError Path :=
  match jsOrOptPath opts.tectonicPath (resolveTectonicExecutable re opts fs) with
  | some p => if p = [] then .error (.err ctorNotFoundMsg) else .ok p
  | none => .error (.err ctorNotFoundMsg)

/-!
## `getVersion` (part_003 lines 53-73) and its version-token pattern

The source runs `"<binary>" --help` through `exec` and applies the JS
regular expression `/tectonic[-\s]+([\d.]+[\+\w-]*)/i` to
`stdout || stderr`.  The matcher below implements exactly that pattern:
the product name case-insensitively, one or more hyphen/whitespace
separators, then the captured token `[\d.]+[\+\w-]*` (both runs greedy;
the character classes are disjoint where backtracking could matter, so
maximal-munch is the regex's semantics).
-/

/-- Character class `[\d.]`. -/
def isVerChar (c : Char) : Bool := c.isDigit ∨ c = '.'

/-- Character class `[-\s]` (ASCII whitespace). -/
def isSepChar (c : Char) : Bool :=
  c = '-' ∨ c = ' ' ∨ c = '\t' ∨ c = '\n' ∨ c = '\r' ∨ c = '\x0b' ∨ c = '\x0c'

/-- Character class `[\+\w-]`. -/
def isTailChar (c : Char) : Bool :=
  c.isAlphanum ∨ c = '_' ∨ c = '+' ∨ c = '-'

/-- Case-insensitive match of a lowercase pattern at the head of the
input, returning the remainder. -/
def matchCI : List Char → List Char → Option (List Char)
  | [], rest => some rest
  | _ :: _, [] => none
  | p :: ps, c :: cs => if c.toLower = p then matchCI ps cs else none

/-- Try the whole pattern at this position; the captured group on
success. -/
def matchVersionAt (cs : List Char) : Option String :=
  match matchCI ("tectonic".data) cs with
  | none => none
  | some rest =>
    let seps := rest.takeWhile isSepChar
    let rest2 := rest.dropWhile isSepChar
    if seps.isEmpty then none
    else
      let digs := rest2.takeWhile isVerChar
      let rest3 := rest2.dropWhile isVerChar
      if digs.isEmpty then none
      else some (String.mk (digs ++ rest3.takeWhile isTailChar))

/-- Leftmost match of the pattern, as JS `String.prototype.match`. -/
def firstVersionMatchAux : List Char → Option String
  | [] => none
  | c :: tl =>
    match matchVersionAt (c :: tl) with
    | some v => some v
    | none => firstVersionMatchAux tl

/-- `output.match(/tectonic[-\s]+([\d.]+[\+\w-]*)/i)`, capture group 1. -/
def firstVersionMatch (s : String) : Option String :=
  firstVersionMatchAux s.data

/-- Case-sensitive substring test at the head. -/
def hasSubAt : List Char → List Char → Bool
  | [], _ => true
  | _ :: _, [] => false
  | p :: ps, c :: cs => p = c && hasSubAt ps cs

/-- Case-sensitive substring scan. -/
def containsSubAux (pat : List Char) : List Char → Bool
  | [] => hasSubAt pat []
  | c :: tl => hasSubAt pat (c :: tl) || containsSubAux pat tl

/-- JS `s.includes(pat)` (case-sensitive). -/
def containsSub (s pat : String) : Bool := containsSubAux pat.data s.data

/-- Observable behaviour of the `exec` call behind `getVersion`: either
the callback receives an error, or it receives the two output texts. -/
inductive VersionRun where
  | failure
  | output (stdout stderr : String)
deriving DecidableEq, Repr

/-- The command string `getVersion` executes. -/
def getVersionCmd (tectonicPath : Path) : String :=
  "\"" ++ renderPath tectonicPath ++ "\" --help"

/-- `getVersion` (part_003 lines 53-73): `null` on exec error; otherwise
the captured version token from `stdout || stderr`; otherwise
`'unknown'` when the output mentions `tectonic`, else `null`. -/
def getVersion (run : VersionRun) : Option String :=
  match run with
  | .failure => none
  | .output stdout stderr =>
    let output := if stdout ≠ "" then stdout else stderr
    match firstVersionMatch output with
    | some v => some v
    | none => if containsSub output "tectonic" then some "unknown" else none

/-- The `getVersion` convenience entry point (index.js lines 60-67):
constructor failures are caught and become `null`. -/
def indexGetVersion (ctor : Except JsError Path) (run : VersionRun) :
    Option String :=
  match ctor with
  | .error _ => none
  | .ok _ => getVersion run

/-!
## Basic lemmas about the filesystem model
-/

@[simp]
theorem lookup_setFile_self (l : List (Path × String)) (p : Path) (c : String) :
    lookupFile (setFile l p c) p = some c := by
  induction l with
  | nil => simp [setFile, lookupFile]
  | cons h t ih =>
    by_cases hp : p = h.1
    · simp [setFile, hp, lookupFile]
    · simp [setFile, hp, lookupFile, ih]

theorem lookup_setFile_ne (l : List (Path × String)) {p q : Path} (c : String)
    (h : q ≠ p) : lookupFile (setFile l p c) q = lookupFile l q := by
  induction l with
  | nil => simp [setFile, lookupFile, h]
  | cons hd t ih =>
    by_cases hp : p = hd.1
    · subst hp; simp [setFile, lookupFile, h]
    · by_cases hq : q = hd.1
      · simp [setFile, hp, lookupFile, hq]
      · simp [setFile, hp, lookupFile, hq, ih]

@[simp]
theorem lookup_erase_self (l : List (Path × String)) (p : Path) :
    lookupFile (eraseFile l p) p = none := by
  induction l with
  | nil => simp [eraseFile, lookupFile]
  | cons hd t ih =>
    by_cases hp : p = hd.1
    · subst hp; simp [eraseFile, ih]
    · simp [eraseFile, hp, lookupFile, ih]

theorem lookup_erase_ne (l : List (Path × String)) {p q : Path} (h : q ≠ p) :
    lookupFile (eraseFile l p) q = lookupFile l q := by
  induction l with
  | nil => simp [eraseFile]
  | cons hd t ih =>
    by_cases hp : p = hd.1
    · subst hp; simp [eraseFile, lookupFile, h, ih]
    · by_cases hq : q = hd.1
      · simp [eraseFile, hp, lookupFile, hq]
      · simp [eraseFile, hp, lookupFile, hq, ih]

theorem isSome_lookup_setFile (l : List (Path × String)) (p q : Path)
    (c : String) (h : (lookupFile l q).isSome = true) :
    (lookupFile (setFile l p c) q).isSome = true := by
  by_cases hq : q = p
  · subst hq; simp
  · rw [lookup_setFile_ne l c hq]; exact h

theorem isSome_lookup_erase (l : List (Path × String)) {p q : Path}
    (h : (lookupFile (eraseFile l p) q).isSome = true) :
    (lookupFile l q).isSome = true := by
  by_cases hq : q = p
  · subst hq; simp at h
  · rwa [lookup_erase_ne l hq] at h

theorem memPath_append_left {l : List Path} (l2 : List Path) {p : Path}
    (h : memPath l p = true) : memPath (l ++ l2) p = true := by
  induction l with
  | nil => simp [memPath] at h
  | cons hd t ih =>
    by_cases hp : p = hd
    · simp [memPath, hp]
    · simp [memPath, hp] at h ⊢; exact ih h

theorem memPath_addDirs {ds : List Path} (new : List Path) {p : Path}
    (h : memPath ds p = true) : memPath (addDirs ds new) p = true := by
  induction new generalizing ds with
  | nil => simpa [addDirs] using h
  | cons hd t ih =>
    show memPath (addDirs (if memPath ds hd then ds else ds ++ [hd]) t) p = true
    by_cases hm : memPath ds hd = true
    · rw [if_pos hm]; exact ih h
    · rw [if_neg hm]; exact ih (memPath_append_left [hd] h)

theorem memPath_concat_inv {ds : List Path} {hd p : Path}
    (h : memPath (ds ++ [hd]) p = true) : memPath ds p = true ∨ p = hd := by
  induction ds with
  | nil =>
    by_cases hp : p = hd
    · exact Or.inr hp
    · simp [memPath, hp] at h
  | cons d0 dt ih =>
    by_cases hd0 : p = d0
    · exact Or.inl (by simp [memPath, hd0])
    · simp only [List.cons_append, memPath, hd0, if_neg hd0] at h ⊢
      exact ih h

theorem memPath_addDirs_inv {ds : List Path} {new : List Path} {p : Path}
    (h : memPath (addDirs ds new) p = true) :
    memPath ds p = true ∨ p ∈ new := by
  induction new generalizing ds with
  | nil => exact Or.inl (by simpa [addDirs] using h)
  | cons hd t ih =>
    have h' : memPath (addDirs (if memPath ds hd then ds else ds ++ [hd]) t) p
        = true := h
    by_cases hm : memPath ds hd = true
    · rw [if_pos hm] at h'
      rcases ih h' with h2 | h2
      · exact Or.inl h2
      · exact Or.inr (List.mem_cons_of_mem _ h2)
    · rw [if_neg hm] at h'
      rcases ih h' with h2 | h2
      · rcases memPath_concat_inv h2 with h3 | h3
        · exact Or.inl h3
        · exact Or.inr (by simp [h3])
      · exact Or.inr (List.mem_cons_of_mem _ h2)

theorem concat_inj {l l2 : Path} {a b : String} :
    l ++ [a] = l2 ++ [b] ↔ l = l2 ∧ a = b := by
  constructor
  · intro h
    have := List.append_inj' h (by simp)
    exact ⟨this.1, by simpa using this.2⟩
  · rintro ⟨rfl, rfl⟩; rfl

@[simp]
theorem concat_ne_nil (l : Path) (a : String) : (l ++ [a] : Path) ≠ [] := by
  simp

theorem writeFileFS_ok_inv {fs : FS} {p : Path} {c : String} {fs' : FS}
    (h : writeFileFS fs p c = .ok fs') :
    fs' = ⟨fs.dirs, setFile fs.files p c⟩ := by
  simp only [writeFileFS] at h
  split at h
  · cases h
  · split at h
    · split at h
      · cases h
      · cases h; rfl
    · cases h

theorem unlinkFS_ok_inv {fs : FS} {p : Path} {fs' : FS}
    (h : unlinkFS fs p = .ok fs') :
    fs' = ⟨fs.dirs, eraseFile fs.files p⟩ := by
  unfold unlinkFS at h
  split at h
  · cases h; rfl
  · split at h <;> cases h

theorem renameFS_ok_inv {fs : FS} {src dst : Path} {fs' : FS}
    (h : renameFS fs src dst = .ok fs') :
    ∃ c, lookupFile fs.files src = some c ∧
      fs' = ⟨fs.dirs, setFile (eraseFile fs.files src) dst c⟩ := by
  simp only [renameFS] at h
  split at h
  · cases h
  · rename_i c hc
    split at h
    · cases h
    · split at h
      · split at h
        · cases h
        · cases h; exact ⟨c, hc, rfl⟩
      · cases h

@[simp]
theorem tryUnlinkIgnore_dirs (fs : FS) (p : Path) :
    (tryUnlinkIgnore fs p).dirs = fs.dirs := by
  unfold tryUnlinkIgnore
  cases h : unlinkFS fs p with
  | ok fs' => rw [unlinkFS_ok_inv h]
  | error e => rfl

theorem isSome_lookup_tryUnlink {fs : FS} {p q : Path}
    (h : (lookupFile (tryUnlinkIgnore fs p).files q).isSome = true) :
    (lookupFile fs.files q).isSome = true := by
  unfold tryUnlinkIgnore at h
  cases hu : unlinkFS fs p with
  | ok fs' =>
    rw [hu, unlinkFS_ok_inv hu] at h
    exact isSome_lookup_erase _ h
  | error e => rwa [hu] at h

theorem mkdirRecFS_ok_inv {fs : FS} {p : Path} {fs' : FS}
    (h : mkdirRecFS fs p = .ok fs') :
    fs' = ⟨addDirs fs.dirs (properAncestors p ++ [p]), fs.files⟩ ∧
      (lookupFile fs.files p).isSome = false ∧
      ∀ a ∈ properAncestors p, (lookupFile fs.files a).isSome = false := by
  unfold mkdirRecFS at h
  split at h
  · cases h
  · rename_i hp
    split at h
    · cases h
    · rename_i hfind
      cases h
      refine ⟨rfl, by simpa using hp, ?_⟩
      intro a ha
      have := List.find?_eq_none.mp hfind a ha
      simpa using this

theorem mkdirRecFS_dirs_mono {fs : FS} {q : Path} {fs' : FS} {p : Path}
    (h : mkdirRecFS fs q = .ok fs') (hp : memPath fs.dirs p = true) :
    memPath fs'.dirs p = true := by
  rw [(mkdirRecFS_ok_inv h).1]
  exact memPath_addDirs _ hp

theorem mkdirRecFS_files_eq {fs : FS} {q : Path} {fs' : FS}
    (h : mkdirRecFS fs q = .ok fs') : fs'.files = fs.files := by
  rw [(mkdirRecFS_ok_inv h).1]

theorem mkdirRecFS_no_file_dir {fs : FS} {q : Path} {fs' : FS} {x : Path}
    (h : mkdirRecFS fs q = .ok fs')
    (hx : (lookupFile fs.files x).isSome = true)
    (hd : memPath fs.dirs x = false) : memPath fs'.dirs x = false := by
  obtain ⟨hfs, hq, hanc⟩ := mkdirRecFS_ok_inv h
  rw [hfs]
  by_contra hmem
  have hmem' : memPath (addDirs fs.dirs (properAncestors q ++ [q])) x = true := by
    revert hmem
    cases memPath (addDirs fs.dirs (properAncestors q ++ [q])) x <;> simp
  rcases memPath_addDirs_inv hmem' with h1 | h1
  · rw [hd] at h1; cases h1
  · rcases List.mem_append.mp h1 with h2 | h2
    · have := hanc x h2; rw [hx] at this; cases this
    · have : x = q := by simpa using h2
      subst this; rw [hx] at hq; cases hq

theorem ensureDirectoryExists_ok_dirs_mono {fs : FS} {q : Path} {fs' : FS}
    {p : Path} (h : ensureDirectoryExists fs q = .ok fs')
    (hp : memPath fs.dirs p = true) : memPath fs'.dirs p = true := by
  unfold ensureDirectoryExists at h
  split at h
  · cases h; exact hp
  · exact mkdirRecFS_dirs_mono h hp

theorem ensureDirectoryExists_ok_files_eq {fs : FS} {q : Path} {fs' : FS}
    (h : ensureDirectoryExists fs q = .ok fs') : fs'.files = fs.files := by
  unfold ensureDirectoryExists at h
  split at h
  · cases h; rfl
  · exact mkdirRecFS_files_eq h

theorem ensureDirectoryExists_no_file_dir {fs : FS} {q : Path} {fs' : FS}
    {x : Path} (h : ensureDirectoryExists fs q = .ok fs')
    (hx : (lookupFile fs.files x).isSome = true)
    (hd : memPath fs.dirs x = false) : memPath fs'.dirs x = false := by
  unfold ensureDirectoryExists at h
  split at h
  · cases h; exact hd
  · exact mkdirRecFS_no_file_dir h hx hd

theorem getTempDir_ok_fst {env : Env} {fs : FS} {d : Path} {fs' : FS}
    (h : getTempDir env fs = .ok (d, fs')) : d = env.tempDir := by
  unfold getTempDir at h
  split at h
  · cases h; rfl
  · split at h
    · cases h
    · cases h; rfl

theorem getTempDir_of_memDir (env : Env) (fs : FS)
    (h : memPath fs.dirs env.tempDir = true) :
    getTempDir env fs = .ok (env.tempDir, fs) := by
  unfold getTempDir
  rw [if_pos]
  unfold existsSyncFS
  rw [h]
  rfl

@[simp]
theorem applyWrites_dirs (fs : FS) (beh : ProcBehavior) :
    (applyWrites fs beh).dirs = fs.dirs := rfl

theorem handleResult_dirs (cfg : Config) (fs : FS) (td fp tt : Path)
    (r : ExecResult) : ((handleResult cfg fs td fp tt r).2.1).dirs = fs.dirs := by
  simp only [handleResult]
  split
  · split
    · split
      · split
        · rfl
        · split
          · split
            · rfl
            · rename_i fs' hu
              rw [unlinkFS_ok_inv hu]
          · rfl
      · split
        · split
          · rfl
          · rename_i fs1 hs1
            have hd1 : fs1.dirs = fs.dirs := by
              split at hs1
              · rw [unlinkFS_ok_inv hs1]
              · cases hs1; rfl
            split
            · exact hd1
            · rename_i fs2 hr2
              obtain ⟨c, _, hfs2⟩ := renameFS_ok_inv hr2
              rw [hfs2]; exact hd1
        · rfl
    · rfl
  · rfl

theorem compileFinally_ok_inv {env : Env} {cfg : Config} {t : TryOut}
    {o : Outcome} (h : (compileFinally env cfg t).1 = .ok o) :
    t.outcome = .ok o := by
  simp only [compileFinally] at h
  split at h
  · split at h
    · cases h
    · split at h
      · split at h
        · split at h <;> exact h
        · split at h
          · cases h
          · exact h
      · exact h
  · exact h

theorem compileFinally_inert {env : Env} {cfg : Config} {t : TryOut}
    (h1 : t.execResult = none) (h2 : t.shouldCleanupTemp = false) :
    compileFinally env cfg t = (t.outcome, t.fs) := by
  simp only [compileFinally, h1, h2, execSucceeded, finallyCleanupTemp]
  simp

/-!
## Shared concrete instances used by witnesses and counterexamples
-/

/-- A concrete environment: scratch directory `T`, call time `5`. -/
def wEnv : Env := ⟨["T"], ["cwd"], 5, ["bin", "tec"]⟩

/-- A concrete filesystem: the scratch directory and a directory `out`. -/
def wFS : FS := ⟨[["T"], ["out"]], []⟩

/-- A concrete text-input request targeting directory `out`. -/
def wCfgTex : Config := { tex := some "doc", outputDir := some ["out"] }

/-- A subprocess run that exits 0 and writes the predicted scratch PDF. -/
def wBehPdf : ProcBehavior :=
  .exits (some 0) [(["T", "__temp_compile_5.pdf"], "PDFBYTES")] ["o1"] ["e1"]

/-!
## Claims
-/

/-- C6: when the subprocess fails to launch, `executeCompilation` resolves
(never rejects: it is a total function into `ExecOutput`) with a synthetic
failure result: status `'failed'`, the sentinel exit code `-1`, the launch
error's message in the `error` field, and the stdout/stderr accumulated up
to that point. -/
theorem c6_launch_error_resolves (msg : String) (outs errs : List String)
    (h1 h2 : Bool) :
    (executeCompilationFull h1 h2 (.launchError msg outs errs)).result =
      ⟨"failed", some (-1), some msg, accumulate outs, accumulate errs⟩ := rfl

/-- C9: for every subprocess behaviour, the accumulated `stdout` in the
executor's result equals the in-order concatenation of exactly the chunks
forwarded to the `onStdout` observer when one is given (and likewise for
`stderr` and `onStderr`); the forwarded chunks are the received chunks
verbatim, and the accumulated result is independent of whether observers
are registered. -/
theorem c9_stream_accumulation (beh : ProcBehavior) (h1 h2 : Bool) :
    ((executeCompilationFull true h2 beh).result.stdout =
       accumulate (executeCompilationFull true h2 beh).stdoutCalls) ∧
    (executeCompilationFull true h2 beh).stdoutCalls = behOutChunks beh ∧
    ((executeCompilationFull h1 true beh).result.stderr =
       accumulate (executeCompilationFull h1 true beh).stderrCalls) ∧
    (executeCompilationFull h1 true beh).stderrCalls = behErrChunks beh ∧
    (executeCompilationFull h1 h2 beh).result =
      (executeCompilationFull true true beh).result := by
  cases beh with
  | exits code w outs errs =>
    simp [executeCompilationFull]
    constructor <;> (split <;> rfl)
  | launchError msg outs errs => simp [executeCompilationFull]

/-- C3: every subprocess invocation made by `compile` directs the
`--outdir` flag at the private scratch directory, and in particular never
at a caller-requested output directory different from the scratch
directory; the artifact reaches the caller's directory only through the
later move/rename step of `handleResult`. -/
theorem c3_outdir_is_scratch (env : Env) (cfg : Config) (fs : FS)
    (beh : ProcBehavior) (call : ExecCall)
    (hc : call ∈ (compile env cfg fs beh).execCalls) :
    call.outdir = env.tempDir ∧
      ∀ d, cfg.outputDir = some d → d ≠ env.tempDir → call.outdir ≠ d := by
  have hcalls : call ∈ (compileTry env cfg fs beh).calls := hc
  have hmain : call.outdir = env.tempDir := by
    simp only [compileTry] at hcalls
    split at hcalls
    · simp at hcalls
    · rename_i pr heq
      split at hcalls
      · simp at hcalls
      · split at hcalls
        · simp at hcalls
        · simp only [List.mem_singleton] at hcalls
          subst hcalls
          exact getTempDir_ok_fst heq
  refine ⟨hmain, fun d hd hne => ?_⟩
  rw [hmain]
  exact fun h => hne h.symm

/-- C3 witness: a concrete call records the scratch directory as outdir. -/
theorem c3_outdir_is_scratch_witness :
    (⟨["T", "__temp_compile_5.tex"], ["T"],
        execCmd ["bin", "tec"] ["T", "__temp_compile_5.tex"] ["T"]⟩ : ExecCall).outdir
      = wEnv.tempDir ∧ (["out"] : Path) ≠ wEnv.tempDir :=
  ⟨(c3_outdir_is_scratch wEnv wCfgTex wFS wBehPdf _ (by decide)).1, by decide⟩

/-- C4: when neither `tex` nor `texFile` is supplied, or when `texFile` is
supplied but no file exists at that path, `compile` rejects and no
subprocess is ever invoked; under the benign assumption that the scratch
directory is a directory, the rejection carries the exact invalid-input
message of the source. -/
theorem c4_invalid_input (env : Env) (cfg : Config) (fs : FS)
    (beh : ProcBehavior) :
    (truthyS cfg.tex = false → truthyP cfg.texFile = false →
      (compile env cfg fs beh).execCalls = [] ∧
      (∃ e, (compile env cfg fs beh).result = .error e) ∧
      (memPath fs.dirs env.tempDir = true →
        (compile env cfg fs beh).result =
          .error (.err "Either tex or texFile must be provided"))) ∧
    (∀ f, cfg.texFile = some f → f ≠ [] → existsSyncFS fs f = false →
      memPath fs.dirs env.tempDir = true →
      (compile env cfg fs beh).execCalls = [] ∧
      (compile env cfg fs beh).result =
        .error (.err ("LaTeX file not found: " ++ renderPath f))) := by
  constructor
  · intro h1 h2
    cases hg : getTempDir env fs with
    | error e =>
      have ht : compileTry env cfg fs beh =
          ⟨.error e, fs, [], none, false, none, none⟩ := by
        simp only [compileTry, hg]
      have hcomp : compile env cfg fs beh =
          ⟨.error e, fs, [], none⟩ := by
        simp only [compile, ht, compileFinally_inert (t := ⟨_, _, _, _, _, _, _⟩)
          rfl rfl]
      refine ⟨by simp [hcomp], ⟨e, by simp [hcomp]⟩, ?_⟩
      intro hmem
      rw [getTempDir_of_memDir env fs hmem] at hg
      cases hg
    | ok pr =>
      obtain ⟨td, fs1⟩ := pr
      have hmat : materializeInput env cfg fs1 td =
          .thrown (.err "Either tex or texFile must be provided") none fs1 := by
        simp [materializeInput, h1, h2]
      have ht : compileTry env cfg fs beh =
          ⟨.error (.err "Either tex or texFile must be provided"), fs1, [],
            none, false, none, none⟩ := by
        simp only [compileTry, hg, hmat]
      have hcomp : compile env cfg fs beh =
          ⟨.error (.err "Either tex or texFile must be provided"), fs1, [],
            none⟩ := by
        simp only [compile, ht, compileFinally_inert (t := ⟨_, _, _, _, _, _, _⟩)
          rfl rfl]
      exact ⟨by simp [hcomp],
        ⟨.err "Either tex or texFile must be provided", by simp [hcomp]⟩,
        fun _ => by simp [hcomp]⟩
  · intro f hf hne hex hmem
    have hg := getTempDir_of_memDir env fs hmem
    have h2 : truthyP (some f) = true := by simp [truthyP, hne]
    have hmat : materializeInput env cfg fs env.tempDir =
        .thrown (.err ("LaTeX file not found: " ++ renderPath f)) none fs := by
      simp [materializeInput, hf, h2, hex]
    have ht : compileTry env cfg fs beh =
        ⟨.error (.err ("LaTeX file not found: " ++ renderPath f)), fs, [],
          none, false, none, none⟩ := by
      simp only [compileTry, hg, hmat]
    have hcomp : compile env cfg fs beh =
        ⟨.error (.err ("LaTeX file not found: " ++ renderPath f)), fs, [],
          none⟩ := by
      simp only [compile, ht, compileFinally_inert (t := ⟨_, _, _, _, _, _, _⟩)
        rfl rfl]
    exact ⟨by simp [hcomp], by simp [hcomp]⟩

/-- C4 witness: the empty request is rejected with the invalid-input
message and no subprocess call. -/
theorem c4_invalid_input_witness :
    (compile wEnv {} wFS wBehPdf).execCalls = [] ∧
    (compile wEnv {} wFS wBehPdf).result =
      .error (.err "Either tex or texFile must be provided") :=
  ⟨((c4_invalid_input wEnv {} wFS wBehPdf).1 (by decide) (by decide)).1,
   ((c4_invalid_input wEnv {} wFS wBehPdf).1 (by decide) (by decide)).2.2
     (by decide)⟩

theorem compileFinally_fst_of_not_success {env : Env} {cfg : Config}
    {t : TryOut} (h : execSucceeded t.execResult = false) :
    (compileFinally env cfg t).1 = t.outcome := by
  simp [compileFinally, h]

/-- C10: when the subprocess exits with a nonzero code, `compile` returns
the executor's result unchanged: status `'failed'` with that exit code and
the accumulated stdout and stderr, and with no `pdfPath`, no `pdfBuffer`
and no `error` field. -/
theorem c10_nonzero_exit_passthrough (env : Env) (cfg : Config) (fs : FS)
    (c : Int) (w : List (Path × String)) (outs errs : List String)
    (hc : c ≠ 0)
    (hcalls : (compile env cfg fs (.exits (some c) w outs errs)).execCalls ≠ []) :
    (compile env cfg fs (.exits (some c) w outs errs)).result =
      .ok { status := "failed", pdfPath := none, pdfBuffer := none,
            exitCode := some c, error := none,
            stdout := some (accumulate outs),
            stderr := some (accumulate errs) } := by
  have hcalls' :
      (compileTry env cfg fs (.exits (some c) w outs errs)).calls ≠ [] := hcalls
  cases hg : getTempDir env fs with
  | error e =>
    exact absurd (by simp only [compileTry, hg] : _) hcalls'
  | ok pr =>
    obtain ⟨td, fs1⟩ := pr
    cases hm : materializeInput env cfg fs1 td with
    | thrown e tt fs2 =>
      exact absurd (by simp only [compileTry, hg, hm] : _) hcalls'
    | ok tt clean fs2 =>
      cases he : ensureDirectoryExists fs2 (chooseOutputDir cfg td) with
      | error e =>
        exact absurd (by simp only [compileTry, hg, hm, he] : _) hcalls'
      | ok fs3 =>
        have hres : (executeCompilationFull cfg.hasOnStdout cfg.hasOnStderr
            (.exits (some c) w outs errs)).result =
            ⟨"failed", some c, none, accumulate outs, accumulate errs⟩ := by
          simp [executeCompilationFull, behOutChunks, behErrChunks, hc]
        have ht : compileTry env cfg fs (.exits (some c) w outs errs) =
            ⟨.ok { status := "failed", pdfPath := none, pdfBuffer := none,
                   exitCode := some c, error := none,
                   stdout := some (accumulate outs),
                   stderr := some (accumulate errs) },
              applyWrites fs3 (.exits (some c) w outs errs),
              [⟨tt, td, execCmd env.tectonicPath tt td⟩], some tt, clean,
              some ⟨"failed", some c, none, accumulate outs, accumulate errs⟩,
              none⟩ := by
          simp only [compileTry, hg, hm, he, hres]
          simp [handleResult]
        show (compileFinally env cfg
            (compileTry env cfg fs (.exits (some c) w outs errs))).1 = _
        rw [ht, compileFinally_fst_of_not_success (by simp [execSucceeded])]

/-- C10 witness: a concrete exit-2 run passes the executor result
through unchanged. -/
theorem c10_nonzero_exit_passthrough_witness :
    (compile wEnv wCfgTex wFS (.exits (some 2) [] ["o"] ["e"])).result =
      .ok { status := "failed", pdfPath := none, pdfBuffer := none,
            exitCode := some 2, error := none,
            stdout := some "o", stderr := some "e" } :=
  c10_nonzero_exit_passthrough wEnv wCfgTex wFS 2 [] ["o"] ["e"]
    (by decide) (by decide)

@[simp]
theorem finallyCleanupTemp_dirs (t : TryOut) :
    (finallyCleanupTemp t).dirs = t.fs.dirs := by
  unfold finallyCleanupTemp; split <;> simp

theorem existsSync_tryUnlink_false {fs : FS} {q p : Path}
    (h : existsSyncFS fs p = false) :
    existsSyncFS (tryUnlinkIgnore fs q) p = false := by
  simp only [existsSyncFS, Bool.or_eq_false_iff] at h ⊢
  refine ⟨by rw [tryUnlinkIgnore_dirs]; exact h.1, ?_⟩
  by_contra hc
  have h1 : (lookupFile (tryUnlinkIgnore fs q).files p).isSome = true := by
    revert hc
    cases (lookupFile (tryUnlinkIgnore fs q).files p).isSome <;> simp
  have h2 := isSome_lookup_tryUnlink h1
  rw [h.2] at h2
  cases h2

theorem existsSync_finallyCleanup_false {t : TryOut} {p : Path}
    (h : existsSyncFS t.fs p = false) :
    existsSyncFS (finallyCleanupTemp t) p = false := by
  unfold finallyCleanupTemp
  split
  · exact existsSync_tryUnlink_false h
  · exact h

theorem compileFinally_fst_artifact_gone {env : Env} {cfg : Config}
    {t : TryOut} (tt : Path) (htt : t.tempTexPath = some tt)
    (hd : memPath t.fs.dirs env.tempDir = true)
    (hgone : existsSyncFS t.fs (getTempPdfPath tt env.tempDir) = false) :
    (compileFinally env cfg t).1 = t.outcome := by
  simp only [compileFinally]
  split
  · have hdA : memPath (finallyCleanupTemp t).dirs env.tempDir = true := by
      rw [finallyCleanupTemp_dirs]; exact hd
    rw [getTempDir_of_memDir env _ hdA]
    have hg2 : existsSyncFS (finallyCleanupTemp t)
        (getTempPdfPath (t.tempTexPath.getD []) env.tempDir) = false := by
      rw [htt]
      exact existsSync_finallyCleanup_false hgone
    simp [hg2]
  · rfl

theorem materializeInput_ok_dirs {env : Env} {cfg : Config} {fs : FS}
    {td tt : Path} {clean : Bool} {fs' : FS}
    (h : materializeInput env cfg fs td = .ok tt clean fs') :
    fs'.dirs = fs.dirs := by
  simp only [materializeInput] at h
  split at h
  · split at h
    · cases h
    · cases h; rfl
  · split at h
    · split at h
      · cases h
      · rename_i fs2 hw
        cases h
        rw [writeFileFS_ok_inv hw]
    · cases h

theorem handleResult_found_of_exists {cfg : Config} {fs : FS}
    {td fp tt : Path} {r : ExecResult} (hr : r.status = "success")
    (hex : existsSyncFS fs (getTempPdfPath tt td) = true) :
    (handleResult cfg fs td fp tt r).2.2 = some true := by
  simp only [handleResult, hr, hex]
  simp only [if_pos]
  split
  · split
    · rfl
    · split
      · split <;> rfl
      · rfl
  · split
    · split
      · rfl
      · split <;> rfl
    · rfl

theorem handleResult_ok_success_inv {cfg : Config} {fs : FS}
    {td fp tt : Path} {r : ExecResult} {o : Outcome}
    (h : (handleResult cfg fs td fp tt r).1 = .ok o)
    (hs : o.status = "success") :
    r.status = "success" ∧ (handleResult cfg fs td fp tt r).2.2 = some true := by
  by_cases hr : r.status = "success"
  · refine ⟨hr, ?_⟩
    rcases hex : existsSyncFS fs (getTempPdfPath tt td) with _ | _
    · exfalso
      have hf : (handleResult cfg fs td fp tt r).1 =
          .ok { status := "failed", exitCode := some (jsOrNum r.exitCode (-1)),
                error := some "PDF file was not generated",
                stdout := some r.stdout, stderr := some r.stderr } := by
        simp only [handleResult, hr, hex]
        simp
      rw [hf] at h
      cases h
      simp at hs
    · exact handleResult_found_of_exists hr hex
  · exfalso
    have hf : (handleResult cfg fs td fp tt r).1 =
        .ok { status := r.status, exitCode := r.exitCode, error := r.error,
              stdout := some r.stdout, stderr := some r.stderr } := by
      simp only [handleResult, hr]
      simp [hr]
    rw [hf] at h
    cases h
    exact hr hs

theorem execResult_success_exit0 {h1 h2 : Bool} {beh : ProcBehavior}
    (h : (executeCompilationFull h1 h2 beh).result.status = "success") :
    behExit0 beh = true := by
  cases beh with
  | exits code w o e =>
    simp only [executeCompilationFull] at h
    split at h
    · rename_i hc
      rw [hc]
      rfl
    · simp at h
  | launchError msg o e => simp [executeCompilationFull] at h

/-- C1 (amended): when the subprocess reports exit code `0` but the
predicted artifact is absent, `compile` returns status `'failed'` with the
error text `'PDF file was not generated'` and — because the source
computes `result.exitCode || -1` and the exit code in this branch is
always the falsy `0` — the sentinel exit code `-1` (never the
subprocess's own `0`); a `'success'` outcome is returned only when the
subprocess exited `0` and the artifact-existence check succeeded. -/
theorem c1_missing_artifact_amended (env : Env) (cfg : Config) (fs : FS)
    (beh : ProcBehavior) :
    (∀ w outs errs, beh = .exits (some 0) w outs errs →
      memPath fs.dirs env.tempDir = true →
      (compile env cfg fs beh).execCalls ≠ [] →
      (compile env cfg fs beh).artifactFound = some false →
      (compile env cfg fs beh).result =
        .ok { status := "failed", pdfPath := none, pdfBuffer := none,
              exitCode := some (-1),
              error := some "PDF file was not generated",
              stdout := some (accumulate outs),
              stderr := some (accumulate errs) }) ∧
    (∀ o, (compile env cfg fs beh).result = .ok o → o.status = "success" →
      behExit0 beh = true ∧
        (compile env cfg fs beh).artifactFound = some true) := by
  constructor
  · intro w outs errs hbeh htd hcalls hfound
    subst hbeh
    have hg := getTempDir_of_memDir env fs htd
    have hcalls' :
        (compileTry env cfg fs (.exits (some 0) w outs errs)).calls ≠ [] :=
      hcalls
    cases hm : materializeInput env cfg fs env.tempDir with
    | thrown e tt fs2 =>
      exact absurd (by simp only [compileTry, hg, hm] : _) hcalls'
    | ok tt clean fs2 =>
      cases he : ensureDirectoryExists fs2 (chooseOutputDir cfg env.tempDir) with
      | error e =>
        exact absurd (by simp only [compileTry, hg, hm, he] : _) hcalls'
      | ok fs3 =>
        have hres : (executeCompilationFull cfg.hasOnStdout cfg.hasOnStderr
            (.exits (some 0) w outs errs)).result =
            ⟨"success", some 0, none, accumulate outs, accumulate errs⟩ := by
          simp [executeCompilationFull, behOutChunks, behErrChunks]
        cases hex : existsSyncFS (applyWrites fs3 (.exits (some 0) w outs errs))
            (getTempPdfPath tt env.tempDir) with
        | true =>
          exfalso
          have hft : (compile env cfg fs
              (.exits (some 0) w outs errs)).artifactFound = some true := by
            show (compileTry env cfg fs
                (.exits (some 0) w outs errs)).artifactFound = some true
            simp only [compileTry, hg, hm, he, hres]
            exact handleResult_found_of_exists rfl hex
          rw [hft] at hfound
          cases hfound
        | false =>
          have hhr : handleResult cfg
              (applyWrites fs3 (.exits (some 0) w outs errs)) env.tempDir
              (computeFinalPdf env cfg (chooseOutputDir cfg env.tempDir) tt) tt
              ⟨"success", some 0, none, accumulate outs, accumulate errs⟩ =
              (.ok { status := "failed", pdfPath := none, pdfBuffer := none,
                     exitCode := some (-1),
                     error := some "PDF file was not generated",
                     stdout := some (accumulate outs),
                     stderr := some (accumulate errs) },
                applyWrites fs3 (.exits (some 0) w outs errs), some false) := by
            simp only [handleResult, hex]
            simp [jsOrNum]
          have ht : compileTry env cfg fs (.exits (some 0) w outs errs) =
              ⟨.ok { status := "failed", pdfPath := none, pdfBuffer := none,
                     exitCode := some (-1),
                     error := some "PDF file was not generated",
                     stdout := some (accumulate outs),
                     stderr := some (accumulate errs) },
                applyWrites fs3 (.exits (some 0) w outs errs),
                [⟨tt, env.tempDir, execCmd env.tectonicPath tt env.tempDir⟩],
                some tt, clean,
                some ⟨"success", some 0, none, accumulate outs,
                  accumulate errs⟩,
                some false⟩ := by
            simp only [compileTry, hg, hm, he, hres, hhr]
          have hdirs4 : memPath (applyWrites fs3
              (.exits (some 0) w outs errs)).dirs env.tempDir = true := by
            rw [applyWrites_dirs]
            exact ensureDirectoryExists_ok_dirs_mono he
              (by rw [materializeInput_ok_dirs hm]; exact htd)
          show (compileFinally env cfg
              (compileTry env cfg fs (.exits (some 0) w outs errs))).1 = _
          rw [ht,
            compileFinally_fst_artifact_gone tt rfl hdirs4 hex]
  · intro o ho hs
    have ht : (compileTry env cfg fs beh).outcome = .ok o :=
      compileFinally_ok_inv ho
    cases hg : getTempDir env fs with
    | error e =>
      rw [show (compileTry env cfg fs beh).outcome = .error e by
        simp only [compileTry, hg]] at ht
      cases ht
    | ok pr =>
      obtain ⟨td, fs1⟩ := pr
      cases hm : materializeInput env cfg fs1 td with
      | thrown e tt fs2 =>
        rw [show (compileTry env cfg fs beh).outcome = .error e by
          simp only [compileTry, hg, hm]] at ht
        cases ht
      | ok tt clean fs2 =>
        cases he : ensureDirectoryExists fs2 (chooseOutputDir cfg td) with
        | error e =>
          rw [show (compileTry env cfg fs beh).outcome = .error e by
            simp only [compileTry, hg, hm, he]] at ht
          cases ht
        | ok fs3 =>
          have heq : (compileTry env cfg fs beh).outcome =
              (handleResult cfg (applyWrites fs3 beh) td
                (computeFinalPdf env cfg (chooseOutputDir cfg td) tt) tt
                (executeCompilationFull cfg.hasOnStdout cfg.hasOnStderr
                  beh).result).1 := by
            simp only [compileTry, hg, hm, he]
          have ht' : (handleResult cfg (applyWrites fs3 beh) td
              (computeFinalPdf env cfg (chooseOutputDir cfg td) tt) tt
              (executeCompilationFull cfg.hasOnStdout cfg.hasOnStderr
                beh).result).1 = .ok o := by
            rw [← heq]
            exact ht
          obtain ⟨hstat, hfound⟩ := handleResult_ok_success_inv ht' hs
          refine ⟨execResult_success_exit0 hstat, ?_⟩
          show (compileTry env cfg fs beh).artifactFound = some true
          simp only [compileTry, hg, hm, he]
          exact hfound

/-- C1 witness: a concrete zero-exit run with no artifact yields the
amended failure outcome. -/
theorem c1_missing_artifact_amended_witness :
    (compile wEnv wCfgTex wFS (.exits (some 0) [] ["o"] [])).result =
      .ok { status := "failed", pdfPath := none, pdfBuffer := none,
            exitCode := some (-1),
            error := some "PDF file was not generated",
            stdout := some "o", stderr := some "" } :=
  (c1_missing_artifact_amended wEnv wCfgTex wFS _).1 [] ["o"] [] rfl
    (by decide) (by decide) (by decide)

/-- C1 counterexample: the subprocess reported exit code `0` (available),
the artifact was absent, and `compile` returned the sentinel `-1`, not the
available subprocess exit code -- refuting the claim that the `exitCode`
is taken from the subprocess when available. -/
theorem c1_exit_code_counterexample :
    behExit0 (.exits (some 0) [] ["o"] []) = true ∧
    (compile wEnv wCfgTex wFS (.exits (some 0) [] ["o"] [])).result =
      .ok { status := "failed", pdfPath := none, pdfBuffer := none,
            exitCode := some (-1),
            error := some "PDF file was not generated",
            stdout := some "o", stderr := some "" } ∧
    (some (-1) : Option Int) ≠ some 0 := by decide

theorem existsSync_finallyCleanup_self {t : TryOut} (tt : Path)
    (hclean : t.shouldCleanupTemp = true) (htt : t.tempTexPath = some tt)
    (httne : tt ≠ []) (hdir : memPath t.fs.dirs tt = false) :
    existsSyncFS (finallyCleanupTemp t) tt = false := by
  unfold finallyCleanupTemp
  rw [hclean, htt]
  by_cases hex : existsSyncFS t.fs ((some tt : Option Path).getD []) = true
  · rw [if_pos ⟨rfl, by simp [truthyP, httne], hex⟩]
    simp only [Option.getD] at hex ⊢
    have hsome : (lookupFile t.fs.files tt).isSome = true := by
      simpa only [existsSyncFS, hdir, Bool.false_or] using hex
    unfold tryUnlinkIgnore
    rw [show unlinkFS t.fs tt = .ok ⟨t.fs.dirs, eraseFile t.fs.files tt⟩ by
      simp [unlinkFS, hsome]]
    simp [existsSyncFS, hdir]
  · rw [if_neg (fun hcon => hex hcon.2.2)]
    simp only [Option.getD] at hex
    revert hex
    cases existsSyncFS t.fs tt <;> simp

theorem compileFinally_preserves (env : Env) (cfg : Config) {t : TryOut}
    {p : Path} (hfile : truthyP cfg.texFile = false)
    (hd : memPath t.fs.dirs env.tempDir = true)
    (hp : existsSyncFS (finallyCleanupTemp t) p = false) :
    (compileFinally env cfg t).1 = t.outcome ∧
      existsSyncFS (compileFinally env cfg t).2 p = false := by
  have hok := getTempDir_of_memDir env (finallyCleanupTemp t)
    (by rw [finallyCleanupTemp_dirs]; exact hd)
  simp only [compileFinally, hok]
  split
  · split
    · split
      · split
        · exact ⟨rfl, existsSync_tryUnlink_false hp⟩
        · exact ⟨rfl, hp⟩
      · split
        · rename_i h
          rw [hfile] at h
          cases h
        · exact ⟨rfl, hp⟩
    · exact ⟨rfl, hp⟩
  · exact ⟨rfl, hp⟩

/-- C7: after any `compile` call that used inline source text (under the
benign assumptions that the scratch directory is a directory and the
generated temporary name is not a directory), the temporary `.tex` file no
longer exists in the scratch directory, for every possible subprocess
behaviour; and the guaranteed-run cleanup never alters the outcome
computed by the try block (deletion failures are swallowed by
`tryUnlinkIgnore`). -/
theorem c7_temp_source_cleanup (env : Env) (cfg : Config) (fs : FS)
    (beh : ProcBehavior) (htex : truthyS cfg.tex = true)
    (hfile : truthyP cfg.texFile = false)
    (htd : memPath fs.dirs env.tempDir = true)
    (htdf : lookupFile fs.files env.tempDir = none)
    (hnd : memPath fs.dirs (tempTexPathOf env) = false) :
    existsSyncFS (compile env cfg fs beh).fs (tempTexPathOf env) = false ∧
    (compile env cfg fs beh).result = (compileTry env cfg fs beh).outcome := by
  have hg := getTempDir_of_memDir env fs htd
  have hnd' : memPath fs.dirs (env.tempDir ++ [tempTexName env]) = false := hnd
  have hw : writeFileFS fs (tempTexPathOf env) (cfg.tex.getD "") =
      .ok ⟨fs.dirs, setFile fs.files (tempTexPathOf env) (cfg.tex.getD "")⟩ := by
    simp [writeFileFS, tempTexPathOf, htdf, htd, hnd']
  have hm : materializeInput env cfg fs env.tempDir =
      .ok (tempTexPathOf env) true
        ⟨fs.dirs, setFile fs.files (tempTexPathOf env) (cfg.tex.getD "")⟩ := by
    simp only [materializeInput, hfile, htex, Bool.false_eq_true, if_false,
      if_true, tempTexPathOf]
    rw [show (env.tempDir ++ [tempTexName env] : Path) =
      tempTexPathOf env from rfl, hw]
  have hwfsd : (⟨fs.dirs, setFile fs.files (tempTexPathOf env)
      (cfg.tex.getD "")⟩ : FS).dirs = fs.dirs := rfl
  have hsomew : (lookupFile (setFile fs.files (tempTexPathOf env)
      (cfg.tex.getD "")) (tempTexPathOf env)).isSome = true := by
    simp
  cases he : ensureDirectoryExists
      ⟨fs.dirs, setFile fs.files (tempTexPathOf env) (cfg.tex.getD "")⟩
      (chooseOutputDir cfg env.tempDir) with
  | error e =>
    have ht : compileTry env cfg fs beh =
        ⟨.error e,
          ⟨fs.dirs, setFile fs.files (tempTexPathOf env) (cfg.tex.getD "")⟩,
          [], some (tempTexPathOf env), true, none, none⟩ := by
      simp only [compileTry, hg, hm, he]
    have hfsA := existsSync_finallyCleanup_self
      (t := compileTry env cfg fs beh) (tempTexPathOf env)
      (by rw [ht]) (by rw [ht]) (by simp [tempTexPathOf])
      (by rw [ht]; exact hnd)
    have hpres := compileFinally_preserves env cfg
      (t := compileTry env cfg fs beh) hfile (by rw [ht]; exact htd) hfsA
    exact ⟨hpres.2, hpres.1⟩
  | ok fs3 =>
    have hd3 : memPath fs3.dirs env.tempDir = true :=
      ensureDirectoryExists_ok_dirs_mono he htd
    have hnd3 : memPath fs3.dirs (tempTexPathOf env) = false :=
      ensureDirectoryExists_no_file_dir he hsomew hnd
    have ht : compileTry env cfg fs beh =
        ⟨(handleResult cfg (applyWrites fs3 beh) env.tempDir
            (computeFinalPdf env cfg (chooseOutputDir cfg env.tempDir)
              (tempTexPathOf env)) (tempTexPathOf env)
            (executeCompilationFull cfg.hasOnStdout cfg.hasOnStderr
              beh).result).1,
          (handleResult cfg (applyWrites fs3 beh) env.tempDir
            (computeFinalPdf env cfg (chooseOutputDir cfg env.tempDir)
              (tempTexPathOf env)) (tempTexPathOf env)
            (executeCompilationFull cfg.hasOnStdout cfg.hasOnStderr
              beh).result).2.1,
          [⟨tempTexPathOf env, env.tempDir,
            execCmd env.tectonicPath (tempTexPathOf env) env.tempDir⟩],
          some (tempTexPathOf env), true,
          some (executeCompilationFull cfg.hasOnStdout cfg.hasOnStderr
            beh).result,
          (handleResult cfg (applyWrites fs3 beh) env.tempDir
            (computeFinalPdf env cfg (chooseOutputDir cfg env.tempDir)
              (tempTexPathOf env)) (tempTexPathOf env)
            (executeCompilationFull cfg.hasOnStdout cfg.hasOnStderr
              beh).result).2.2⟩ := by
      simp only [compileTry, hg, hm, he]
    have hdirs5 : ((handleResult cfg (applyWrites fs3 beh) env.tempDir
        (computeFinalPdf env cfg (chooseOutputDir cfg env.tempDir)
          (tempTexPathOf env)) (tempTexPathOf env)
        (executeCompilationFull cfg.hasOnStdout cfg.hasOnStderr
          beh).result).2.1).dirs = fs3.dirs := by
      rw [handleResult_dirs, applyWrites_dirs]
    have hfsA := existsSync_finallyCleanup_self
      (t := compileTry env cfg fs beh) (tempTexPathOf env)
      (by rw [ht]) (by rw [ht]) (by simp [tempTexPathOf])
      (by rw [ht]; simpa [hdirs5] using hnd3)
    have hpres := compileFinally_preserves env cfg
      (t := compileTry env cfg fs beh) hfile
      (by rw [ht]; simpa [hdirs5] using hd3) hfsA
    exact ⟨hpres.2, hpres.1⟩

/-- C7 witness: a concrete text-input call leaves no temporary source. -/
theorem c7_temp_source_cleanup_witness :
    existsSyncFS (compile wEnv wCfgTex wFS wBehPdf).fs
      (tempTexPathOf wEnv) = false :=
  (c7_temp_source_cleanup wEnv wCfgTex wFS wBehPdf (by decide) (by decide)
    (by decide) (by decide) (by decide)).1

/-- A concrete filesystem in which the requested output directory `out`
exists beforehand as a plain file. -/
def wFSfileOut : FS := ⟨[["T"]], [(["out"], "stale")]⟩

/-- C2 counterexample: with the intended output directory existing as a
plain file and a subprocess run that succeeds and produces the scratch
PDF, `compile` does not remove the offending file and succeed: it rejects
with the low-level not-a-directory error, and afterwards `out` is still a
plain file and not a directory. -/
theorem c2_enotdir_counterexample :
    (compile wEnv wCfgTex wFSfileOut wBehPdf).result =
      .error (.enotdir ["out"]) ∧
    lookupFile (compile wEnv wCfgTex wFSfileOut wBehPdf).fs.files ["out"] =
      some "stale" ∧
    memPath (compile wEnv wCfgTex wFSfileOut wBehPdf).fs.dirs ["out"] =
      false := by decide

/-- The scratch path at which the subprocess is expected to write the
PDF for a text-input call. -/
def scratchPdfPath (env : Env) : Path :=
  getTempPdfPath (tempTexPathOf env) env.tempDir

theorem scratchPdfPath_eq (env : Env) :
    scratchPdfPath env =
      env.tempDir ++ [baseNoExt (tempTexName env) ++ ".pdf"] := by
  simp [scratchPdfPath, getTempPdfPath, tempTexPathOf, lastStr]

/-- The filename of the predicted scratch PDF for a text-input call. -/
def scratchPdfName (env : Env) : String :=
  baseNoExt (lastStr (tempTexPathOf env)) ++ ".pdf"

theorem getTempPdfPath_tempTex (env : Env) :
    getTempPdfPath (tempTexPathOf env) env.tempDir =
      env.tempDir ++ [scratchPdfName env] := rfl

/-- C2 (amended): `ensureDirectoryExists` creates the output directory
only when nothing exists at the path; when the intended final output
directory exists beforehand as a plain (non-directory) file, the file is
left in place, no directory is created in its place, `compile` does not
succeed, and the low-level not-a-directory failure propagates to the
caller (as the repository's own tests assert), with the offending path
still a plain file afterwards. -/
theorem c2_enotdir_amended :
    (∀ fs p, existsSyncFS fs p = true → ensureDirectoryExists fs p = .ok fs) ∧
    (∀ (env : Env) (cfg : Config) (fs : FS) (d : Path) (s pc : String)
      (outs errs : List String),
      cfg.tex = some s → s ≠ "" → cfg.texFile = none → cfg.outputFile = none →
      cfg.outputDir = some d → cfg.returnBuffer = false → d ≠ [] →
      memPath fs.dirs env.tempDir = true →
      lookupFile fs.files env.tempDir = none →
      memPath fs.dirs (tempTexPathOf env) = false →
      (lookupFile fs.files d).isSome = true →
      memPath fs.dirs d = false →
      lookupFile fs.files (d ++ [scratchPdfName env]) = none →
      memPath fs.dirs (d ++ [scratchPdfName env]) = false →
      scratchPdfName env ≠ tempTexName env →
      d ≠ tempTexPathOf env →
      (compile env cfg fs (.exits (some 0)
          [(env.tempDir ++ [scratchPdfName env], pc)] outs errs)).result =
        .error (.enotdir d) ∧
      (lookupFile (compile env cfg fs (.exits (some 0)
          [(env.tempDir ++ [scratchPdfName env], pc)] outs errs)).fs.files
        d).isSome = true ∧
      memPath (compile env cfg fs (.exits (some 0)
          [(env.tempDir ++ [scratchPdfName env], pc)] outs errs)).fs.dirs d =
        false) := by
  constructor
  · intro fs p h
    simp [ensureDirectoryExists, h]
  · intro env cfg fs d s pc outs errs hcs hsne hcf hcof hcod hcrb hdne htd
      htdf hnd hdf hdd hfnone hfdirs hname hdtt
    have htex : truthyS cfg.tex = true := by simp [truthyS, hcs, hsne]
    have hfile : truthyP cfg.texFile = false := by simp [truthyP, hcf]
    have hofile : truthyP cfg.outputFile = false := by simp [truthyP, hcof]
    have hodir : truthyP cfg.outputDir = true := by simp [truthyP, hcod, hdne]
    have hg := getTempDir_of_memDir env fs htd
    have hnd' : memPath fs.dirs (env.tempDir ++ [tempTexName env]) = false := hnd
    have hw : writeFileFS fs (tempTexPathOf env) (cfg.tex.getD "") =
        .ok ⟨fs.dirs,
          setFile fs.files (tempTexPathOf env) (cfg.tex.getD "")⟩ := by
      simp [writeFileFS, tempTexPathOf, htdf, htd, hnd']
    have hm : materializeInput env cfg fs env.tempDir =
        .ok (tempTexPathOf env) true
          ⟨fs.dirs, setFile fs.files (tempTexPathOf env) (cfg.tex.getD "")⟩ := by
      simp only [materializeInput, hfile, htex, Bool.false_eq_true, if_false,
        if_true, tempTexPathOf]
      rw [show (env.tempDir ++ [tempTexName env] : Path) =
        tempTexPathOf env from rfl, hw]
    have hodir' : truthyP (some d) = true := by simp [truthyP, hdne]
    have hco : chooseOutputDir cfg env.tempDir = d := by
      simp [chooseOutputDir, hcod, hodir']
    have hdT : d ≠ env.tempDir := by
      intro h
      rw [h, htd] at hdd
      cases hdd
    have hldw : (lookupFile
        (setFile fs.files (tempTexPathOf env) (cfg.tex.getD "")) d).isSome =
        true := by
      rw [lookup_setFile_ne _ _ hdtt]
      exact hdf
    have hexd : existsSyncFS
        ⟨fs.dirs, setFile fs.files (tempTexPathOf env) (cfg.tex.getD "")⟩ d =
        true := by
      simp [existsSyncFS, hldw]
    have he : ensureDirectoryExists
        ⟨fs.dirs, setFile fs.files (tempTexPathOf env) (cfg.tex.getD "")⟩ d =
        .ok ⟨fs.dirs,
          setFile fs.files (tempTexPathOf env) (cfg.tex.getD "")⟩ := by
      simp [ensureDirectoryExists, hexd]
    have hfp : computeFinalPdf env cfg d (tempTexPathOf env) =
        d ++ [scratchPdfName env] := by
      simp [computeFinalPdf, hofile, hfile, scratchPdfName]
    have hres : (executeCompilationFull cfg.hasOnStdout cfg.hasOnStderr
        (.exits (some 0) [(env.tempDir ++ [scratchPdfName env], pc)]
          outs errs)).result =
        ⟨"success", some 0, none, accumulate outs, accumulate errs⟩ := by
      simp [executeCompilationFull, behOutChunks, behErrChunks]
    have httne : tempTexPathOf env ≠ env.tempDir ++ [scratchPdfName env] := by
      unfold tempTexPathOf
      intro h
      exact hname ((concat_inj.mp h).2).symm
    have hfinal_ne_spdf : d ++ [scratchPdfName env] ≠
        env.tempDir ++ [scratchPdfName env] := by
      intro h
      exact hdT (concat_inj.mp h).1
    have hfinal_ne_ttex : d ++ [scratchPdfName env] ≠ tempTexPathOf env := by
      unfold tempTexPathOf
      intro h
      exact hname (concat_inj.mp h).2
    have hfs4 : applyWrites
        ⟨fs.dirs, setFile fs.files (tempTexPathOf env) (cfg.tex.getD "")⟩
        (.exits (some 0) [(env.tempDir ++ [scratchPdfName env], pc)]
          outs errs) =
        ⟨fs.dirs, setFile
          (setFile fs.files (tempTexPathOf env) (cfg.tex.getD ""))
          (env.tempDir ++ [scratchPdfName env]) pc⟩ := by
      simp [applyWrites, behWrites]
    have hl_spdf : lookupFile
        (setFile (setFile fs.files (tempTexPathOf env) (cfg.tex.getD ""))
          (env.tempDir ++ [scratchPdfName env]) pc)
        (env.tempDir ++ [scratchPdfName env]) = some pc :=
      lookup_setFile_self _ _ _
    have hl_final : lookupFile
        (setFile (setFile fs.files (tempTexPathOf env) (cfg.tex.getD ""))
          (env.tempDir ++ [scratchPdfName env]) pc)
        (d ++ [scratchPdfName env]) = none := by
      rw [lookup_setFile_ne _ _ hfinal_ne_spdf,
        lookup_setFile_ne _ _ hfinal_ne_ttex]
      exact hfnone
    have hl_d : (lookupFile
        (setFile (setFile fs.files (tempTexPathOf env) (cfg.tex.getD ""))
          (env.tempDir ++ [scratchPdfName env]) pc) d).isSome = true :=
      isSome_lookup_setFile _ _ _ _ hldw
    have hren : renameFS
        ⟨fs.dirs, setFile
          (setFile fs.files (tempTexPathOf env) (cfg.tex.getD ""))
          (env.tempDir ++ [scratchPdfName env]) pc⟩
        (env.tempDir ++ [scratchPdfName env]) (d ++ [scratchPdfName env]) =
        .error (.enotdir d) := by
      simp [renameFS, hl_spdf, hl_d]
    have hhr : handleResult cfg
        ⟨fs.dirs, setFile
          (setFile fs.files (tempTexPathOf env) (cfg.tex.getD ""))
          (env.tempDir ++ [scratchPdfName env]) pc⟩
        env.tempDir (d ++ [scratchPdfName env]) (tempTexPathOf env)
        ⟨"success", some 0, none, accumulate outs, accumulate errs⟩ =
        (.error (.enotdir d),
          ⟨fs.dirs, setFile
            (setFile fs.files (tempTexPathOf env) (cfg.tex.getD ""))
            (env.tempDir ++ [scratchPdfName env]) pc⟩, some true) := by
      have hex4 : existsSyncFS
          ⟨fs.dirs, setFile
            (setFile fs.files (tempTexPathOf env) (cfg.tex.getD ""))
            (env.tempDir ++ [scratchPdfName env]) pc⟩
          (env.tempDir ++ [scratchPdfName env]) = true := by
        simp [existsSyncFS, hl_spdf]
      have hexf4 : existsSyncFS
          ⟨fs.dirs, setFile
            (setFile fs.files (tempTexPathOf env) (cfg.tex.getD ""))
            (env.tempDir ++ [scratchPdfName env]) pc⟩
          (d ++ [scratchPdfName env]) = false := by
        simp [existsSyncFS, hfdirs, hl_final]
      have hne2 := Ne.symm hfinal_ne_spdf
      simp [handleResult, getTempPdfPath_tempTex, hex4, hexf4, hcrb, hne2,
        hren]
    have ht : compileTry env cfg fs
        (.exits (some 0) [(env.tempDir ++ [scratchPdfName env], pc)]
          outs errs) =
        ⟨.error (.enotdir d),
          ⟨fs.dirs, setFile
            (setFile fs.files (tempTexPathOf env) (cfg.tex.getD ""))
            (env.tempDir ++ [scratchPdfName env]) pc⟩,
          [⟨tempTexPathOf env, env.tempDir,
            execCmd env.tectonicPath (tempTexPathOf env) env.tempDir⟩],
          some (tempTexPathOf env), true,
          some ⟨"success", some 0, none, accumulate outs, accumulate errs⟩,
          some true⟩ := by
      simp only [compileTry, hg, hm, hco, he, hfp, hres, hfs4, hhr]
    have hl_ttex : lookupFile
        (setFile (setFile fs.files (tempTexPathOf env) (cfg.tex.getD ""))
          (env.tempDir ++ [scratchPdfName env]) pc)
        (tempTexPathOf env) = some (cfg.tex.getD "") := by
      rw [lookup_setFile_ne _ _ httne]
      exact lookup_setFile_self _ _ _
    have hfA : finallyCleanupTemp
        ⟨.error (.enotdir d),
          ⟨fs.dirs, setFile
            (setFile fs.files (tempTexPathOf env) (cfg.tex.getD ""))
            (env.tempDir ++ [scratchPdfName env]) pc⟩,
          [⟨tempTexPathOf env, env.tempDir,
            execCmd env.tectonicPath (tempTexPathOf env) env.tempDir⟩],
          some (tempTexPathOf env), true,
          some ⟨"success", some 0, none, accumulate outs, accumulate errs⟩,
          some true⟩ =
        ⟨fs.dirs, eraseFile
          (setFile (setFile fs.files (tempTexPathOf env) (cfg.tex.getD ""))
            (env.tempDir ++ [scratchPdfName env]) pc)
          (tempTexPathOf env)⟩ := by
      have httP : truthyP (some (tempTexPathOf env)) = true := by
        simp [truthyP, tempTexPathOf]
      have hexA : existsSyncFS
          ⟨fs.dirs, setFile
            (setFile fs.files (tempTexPathOf env) (cfg.tex.getD ""))
            (env.tempDir ++ [scratchPdfName env]) pc⟩
          (tempTexPathOf env) = true := by
        simp [existsSyncFS, hl_ttex]
      have hunl : unlinkFS
          ⟨fs.dirs, setFile
            (setFile fs.files (tempTexPathOf env) (cfg.tex.getD ""))
            (env.tempDir ++ [scratchPdfName env]) pc⟩
          (tempTexPathOf env) =
          .ok ⟨fs.dirs, eraseFile
            (setFile (setFile fs.files (tempTexPathOf env) (cfg.tex.getD ""))
              (env.tempDir ++ [scratchPdfName env]) pc)
            (tempTexPathOf env)⟩ := by
        simp [unlinkFS, hl_ttex]
      simp [finallyCleanupTemp, httP, hexA, tryUnlinkIgnore, hunl]
    have hl_spdfA : lookupFile
        (eraseFile
          (setFile (setFile fs.files (tempTexPathOf env) (cfg.tex.getD ""))
            (env.tempDir ++ [scratchPdfName env]) pc)
          (tempTexPathOf env))
        (env.tempDir ++ [scratchPdfName env]) = some pc := by
      rw [lookup_erase_ne _ (Ne.symm httne)]
      exact hl_spdf
    have hfin : compileFinally env cfg
        ⟨.error (.enotdir d),
          ⟨fs.dirs, setFile
            (setFile fs.files (tempTexPathOf env) (cfg.tex.getD ""))
            (env.tempDir ++ [scratchPdfName env]) pc⟩,
          [⟨tempTexPathOf env, env.tempDir,
            execCmd env.tectonicPath (tempTexPathOf env) env.tempDir⟩],
          some (tempTexPathOf env), true,
          some ⟨"success", some 0, none, accumulate outs, accumulate errs⟩,
          some true⟩ =
        (.error (.enotdir d),
          ⟨fs.dirs, eraseFile
            (setFile (setFile fs.files (tempTexPathOf env) (cfg.tex.getD ""))
              (env.tempDir ++ [scratchPdfName env]) pc)
            (tempTexPathOf env)⟩) := by
      have httP : truthyP (some (tempTexPathOf env)) = true := by
        simp [truthyP, tempTexPathOf]
      have hgA : getTempDir env
          ⟨fs.dirs, eraseFile
            (setFile (setFile fs.files (tempTexPathOf env) (cfg.tex.getD ""))
              (env.tempDir ++ [scratchPdfName env]) pc)
            (tempTexPathOf env)⟩ =
          .ok (env.tempDir,
            ⟨fs.dirs, eraseFile
              (setFile (setFile fs.files (tempTexPathOf env)
                (cfg.tex.getD ""))
                (env.tempDir ++ [scratchPdfName env]) pc)
              (tempTexPathOf env)⟩) :=
        getTempDir_of_memDir env _ htd
      have hexSP : existsSyncFS
          ⟨fs.dirs, eraseFile
            (setFile (setFile fs.files (tempTexPathOf env) (cfg.tex.getD ""))
              (env.tempDir ++ [scratchPdfName env]) pc)
            (tempTexPathOf env)⟩
          (env.tempDir ++ [scratchPdfName env]) = true := by
        simp [existsSyncFS, hl_spdfA]
      simp [compileFinally, hfA, httP, execSucceeded, hgA,
        getTempPdfPath_tempTex, hexSP, hofile, hfile]
    refine ⟨?_, ?_, ?_⟩
    · show (compileFinally env cfg (compileTry env cfg fs
        (.exits (some 0) [(env.tempDir ++ [scratchPdfName env], pc)]
          outs errs))).1 = _
      rw [ht, hfin]
    · show (lookupFile (compileFinally env cfg (compileTry env cfg fs
        (.exits (some 0) [(env.tempDir ++ [scratchPdfName env], pc)]
          outs errs))).2.files d).isSome = true
      rw [ht, hfin]
      show (lookupFile (eraseFile
        (setFile (setFile fs.files (tempTexPathOf env) (cfg.tex.getD ""))
          (env.tempDir ++ [scratchPdfName env]) pc)
        (tempTexPathOf env)) d).isSome = true
      rw [lookup_erase_ne _ hdtt]
      exact hl_d
    · show memPath (compileFinally env cfg (compileTry env cfg fs
        (.exits (some 0) [(env.tempDir ++ [scratchPdfName env], pc)]
          outs errs))).2.dirs d = false
      rw [ht, hfin]
      exact hdd

/-- C2 witness: the amended behaviour at a concrete obstructed output
directory. -/
theorem c2_enotdir_amended_witness :
    (compile wEnv wCfgTex wFSfileOut (.exits (some 0)
        [(wEnv.tempDir ++ [scratchPdfName wEnv], "PDFBYTES")]
        ["o1"] ["e1"])).result = .error (.enotdir ["out"]) :=
  (c2_enotdir_amended.2 wEnv wCfgTex wFSfileOut ["out"] "doc" "PDFBYTES"
    ["o1"] ["e1"] rfl (by decide) rfl rfl rfl rfl (by decide) (by decide)
    (by decide) (by decide) (by decide) (by decide) (by decide) (by decide)
    (by decide) (by decide)).1

/-- A concrete resolver environment: linux on x64. -/
def wResEnv : ResolverEnv := ⟨"linux", "x64", ["app", "pkg"], ["cwd"], [], none⟩

/-- A concrete filesystem holding a bundled binary under the local
`bin/linux-x64` directory. -/
def wFSBundled : FS :=
  ⟨[["app", "pkg"], ["app", "pkg", "bin"], ["app", "pkg", "bin", "linux-x64"]],
   [(["app", "pkg", "bin", "linux-x64", "tectonic"], "ELF")]⟩

/-- C5 counterexample: the override path does not exist on disk and a
bundled binary is present, yet the constructor still uses the override
path as `this.tectonicPath` (the path spawned) — resolution does not fall
through to the next strategy when an override is supplied, because
`options.tectonicPath || resolveTectonicExecutable(options)` short-circuits
before the resolver's existence check can run. -/
theorem c5_override_counterexample :
    existsSyncFS wFSBundled ["nowhere", "tec"] = false ∧
    resolveBundledTectonic wResEnv wFSBundled =
      some ["app", "pkg", "bin", "linux-x64", "tectonic"] ∧
    constructorTectonicPath wResEnv { tectonicPath := some ["nowhere", "tec"] }
      wFSBundled = .ok ["nowhere", "tec"] ∧
    (["nowhere", "tec"] : Path) ≠
      ["app", "pkg", "bin", "linux-x64", "tectonic"] := by decide

/-- C5 (amended): inside `resolveTectonicExecutable`, an existing override
path takes strict priority over the bundled binary and the system PATH,
and a nonexistent override falls through to the remaining strategies; but
the compiler constructor itself uses a supplied override unconditionally
(`options.tectonicPath || resolveTectonicExecutable(options)`), so the
path used to spawn is the override whenever one is supplied, existing or
not. -/
theorem c5_override_priority_amended :
    (∀ (re : ResolverEnv) (opts : ResolverOptions) (fs : FS) (p : Path),
      opts.tectonicPath = some p → p ≠ [] →
      existsSyncFS fs (pathResolve re.cwd p) = true →
      resolveTectonicExecutable re opts fs = some (pathResolve re.cwd p)) ∧
    (∀ (re : ResolverEnv) (opts : ResolverOptions) (fs : FS) (p : Path),
      opts.tectonicPath = some p → p ≠ [] →
      existsSyncFS fs (pathResolve re.cwd p) = false →
      resolveTectonicExecutable re opts fs =
        resolveTectonicExecutable re {} fs) ∧
    (∀ (re : ResolverEnv) (opts : ResolverOptions) (fs : FS) (p : Path),
      opts.tectonicPath = some p → p ≠ [] →
      constructorTectonicPath re opts fs = .ok p) := by
  refine ⟨?_, ?_, ?_⟩
  · intro re opts fs p hp hpne hex
    have htr : truthyP (some p) = true := by simp [truthyP, hpne]
    simp [resolveTectonicExecutable, htr, hp, hex]
  · intro re opts fs p hp hpne hex
    have htr : truthyP (some p) = true := by simp [truthyP, hpne]
    simp [resolveTectonicExecutable, htr, hp, hex, truthyP]
  · intro re opts fs p hp hpne
    simp [constructorTectonicPath, jsOrOptPath, truthyP, hp, hpne]

/-- C5 witness: concrete instances of both resolver-level priority and the
constructor's unconditional use of the override. -/
theorem c5_override_priority_amended_witness :
    resolveTectonicExecutable wResEnv
      { tectonicPath := some ["app", "pkg", "bin", "linux-x64", "tectonic"] }
      wFSBundled = some ["app", "pkg", "bin", "linux-x64", "tectonic"] ∧
    constructorTectonicPath wResEnv { tectonicPath := some ["nowhere", "tec"] }
      wFSBundled = .ok ["nowhere", "tec"] :=
  ⟨c5_override_priority_amended.1 wResEnv _ wFSBundled _ rfl (by decide)
      (by decide),
   c5_override_priority_amended.2.2 wResEnv _ wFSBundled _ rfl (by decide)⟩

/-- C8 counterexample: on output that mentions the product name but holds
no parsable version token, `getVersion` resolves with the string
`'unknown'`, not `null` — refuting "returns null on any failure or
unparsable output". -/
theorem c8_unknown_counterexample :
    getVersion (.output "tectonic is a typesetting engine" "") =
      some "unknown" ∧
    (some "unknown" : Option String) ≠ none := by decide

/-- C8 (amended): `getVersion` never throws (it is a total function, and
the index-level wrapper catches constructor errors into `null`); it
returns `null` on an exec failure, extracts the version token of the
`name-version` shape from `stdout || stderr` (so help output containing
`tectonic-0.15.0+20251006` yields `0.15.0+20251006`), and on unparsable
output returns `'unknown'` when the output mentions `tectonic` (not
`null`), and `null` only when it does not. -/
theorem c8_getVersion_amended :
    getVersion .failure = none ∧
    getVersion (.output
      "help: tectonic-0.15.0+20251006 (continuous build)" "") =
      some "0.15.0+20251006" ∧
    getVersion (.output "" "Tectonic 0.14.0, a modern engine") =
      some "0.14.0" ∧
    (∀ out err,
      firstVersionMatch (if out ≠ "" then out else err) = none →
      containsSub (if out ≠ "" then out else err) "tectonic" = true →
      getVersion (.output out err) = some "unknown") ∧
    (∀ out err,
      firstVersionMatch (if out ≠ "" then out else err) = none →
      containsSub (if out ≠ "" then out else err) "tectonic" = false →
      getVersion (.output out err) = none) ∧
    (∀ (e : JsError) (run : VersionRun),
      indexGetVersion (.error e) run = none) := by
  refine ⟨rfl, by decide, by decide, ?_, ?_, fun e run => rfl⟩
  · intro out err h1 h2
    have hsw : (if out ≠ "" then out else err) =
        (if out = "" then err else out) := by
      by_cases ho : out = "" <;> simp [ho]
    rw [hsw] at h1 h2
    simp [getVersion, h1, h2]
  · intro out err h1 h2
    have hsw : (if out ≠ "" then out else err) =
        (if out = "" then err else out) := by
      by_cases ho : out = "" <;> simp [ho]
    rw [hsw] at h1 h2
    simp [getVersion, h1, h2]

/-- C8 witness: the unparsable cases at concrete outputs. -/
theorem c8_getVersion_amended_witness :
    getVersion (.output "no name here" "") = none ∧
    getVersion (.output "" "see tectonic docs") = some "unknown" :=
  ⟨c8_getVersion_amended.2.2.2.2.1 "no name here" "" (by decide) (by decide),
   c8_getVersion_amended.2.2.2.1 "" "see tectonic docs" (by decide)
     (by decide)⟩

end NLC
